import Mathlib

/-!
Shallow embedding of the r_linreg repository: the input validation and
coercion pipeline of r_linreg.py (validate_data, clean_x_data, clean_y_data,
final_check), the statistics aggregation of multiple_regr together with the
key ordering of info.included_vars, the report layout of reports.summary, the
prediction utility ancillary.pred, and the DataFrame transforms of
transform.py.  Pandas primitives (DataFrame construction from lists and
Series, reset_index, rename, astype) are modelled explicitly; the external
regression engine (statsmodels OLS fitted through a patsy formula) is
abstracted as a structure whose interface laws record its documented
semantics.  Machine floats are modelled as exact rationals.
-/

namespace RLinreg

/-- Cell values occurring in user data: numbers (python int or float, exact
here), NaN (the float padding pandas creates for ragged nested lists),
numeric strings (convertible by float) and non-numeric strings. -/
inductive Val where
  | num (q : ℚ)
  | nan
  | strNum (q : ℚ)
  | strBad (s : String)
deriving DecidableEq, Repr

/-- Conversion of one cell by DataFrame.astype(np.float64): numbers and NaN
pass through, numeric strings parse, any other string raises ValueError,
modelled as none. -/
def Val.toFloat? : Val → Option Val
  | .num q => some (.num q)
  | .nan => some .nan
  | .strNum q => some (.num q)
  | .strBad _ => none

/-- Whether a cell already carries float data (holds for every cell produced
by astype). -/
def Val.isFloat : Val → Bool
  | .num _ => true
  | .nan => true
  | _ => false

/-- A pandas column label: an integer (as produced by DataFrame construction
from a python list) or a string. -/
inductive Label where
  | i (n : Nat)
  | s (name : String)
deriving DecidableEq, Repr

/-- A pandas DataFrame, column major: an index plus labelled columns.  The
number of rows of a frame, as len() and shape(0) report it, is the length of
its index. -/
structure DataFrame where
  idx : List Int
  cols : List (Label × List Val)
deriving DecidableEq, Repr

def DataFrame.colNames (df : DataFrame) : List Label := df.cols.map Prod.fst

def DataFrame.nCols (df : DataFrame) : Nat := df.cols.length

def DataFrame.nRows (df : DataFrame) : Nat := df.idx.length

/-- All cell values of a frame. -/
def DataFrame.vals (df : DataFrame) : List Val := (df.cols.map Prod.snd).flatten

/-- The default pandas RangeIndex 0, 1, ..., n-1. -/
def rangeIdx (n : Nat) : List Int := (List.range n).map Int.ofNat

/-- df.reset_index(drop=True): replace the index by a fresh RangeIndex. -/
def DataFrame.resetIndex (df : DataFrame) : DataFrame :=
  ⟨rangeIdx df.idx.length, df.cols⟩

/-- df.rename(columns=(old: new)): every column labelled old is relabelled. -/
def DataFrame.renameCol (df : DataFrame) (old new : Label) : DataFrame :=
  ⟨df.idx, df.cols.map (fun c => if c.1 = old then (new, c.2) else c)⟩

/-- astype conversion of one column; none models the ValueError raised on a
non-convertible cell. -/
def colConv? : List Val → Option (List Val)
  | [] => some []
  | v :: t =>
    match v.toFloat?, colConv? t with
    | some w, some t2 => some (w :: t2)
    | _, _ => none

/-- astype conversion of a column list. -/
def colsConv? : List (Label × List Val) → Option (List (Label × List Val))
  | [] => some []
  | c :: t =>
    match colConv? c.2, colsConv? t with
    | some v, some t2 => some ((c.1, v) :: t2)
    | _, _ => none

/-- df.astype(np.float64): convert every cell, keeping index and labels. -/
def DataFrame.astype? (df : DataFrame) : Option DataFrame :=
  (colsConv? df.cols).map (fun cs => DataFrame.mk df.idx cs)

/-- A pandas Series: a name and values.  Its index always has the length of
its values and is discarded by the pipeline's reset_index, so it is not
modelled. -/
structure Series where
  name : Label
  vals : List Val
deriving DecidableEq, Repr

/-- A python list submitted as data: flat (one column) or nested (rows). -/
inductive PyList where
  | flat (vals : List Val)
  | nested (rows : List (List Val))
deriving DecidableEq, Repr

/-- The heterogeneous inputs linreg accepts, plus a constructor for values of
any other python type. -/
inductive Inp where
  | pylist (l : PyList)
  | series (s : Series)
  | frame (df : DataFrame)
  | other
deriving DecidableEq, Repr

/-- isinstance(v, (pd.Series, pd.DataFrame, list)). -/
def Inp.isLSD : Inp → Bool
  | .other => false
  | _ => true

/-- Python len() of an input. -/
def Inp.pyLen : Inp → Nat
  | .pylist (.flat v) => v.length
  | .pylist (.nested r) => r.length
  | .series s => s.vals.length
  | .frame df => df.idx.length
  | .other => 0

/-- The data cells the user actually supplied (without pandas NaN padding). -/
def Inp.cells : Inp → List Val
  | .pylist (.flat v) => v
  | .pylist (.nested r) => r.flatten
  | .series s => s.vals
  | .frame df => df.vals
  | .other => []

/-- Width pandas gives a frame built from a nested list: the longest row. -/
def maxRowLen (rows : List (List Val)) : Nat :=
  rows.foldr (fun r m => max r.length m) 0

/-- pd.DataFrame applied to a flat python list: one column labelled 0. -/
def dfOfFlat (v : List Val) : DataFrame :=
  ⟨rangeIdx v.length, [(.i 0, v)]⟩

/-- pd.DataFrame applied to a nested python list: integer labelled columns,
short rows padded with NaN. -/
def dfOfNested (rows : List (List Val)) : DataFrame :=
  ⟨rangeIdx rows.length,
   (List.range (maxRowLen rows)).map
     (fun j => (Label.i j, rows.map (fun r => (r.get? j).getD Val.nan)))⟩

def dfOfPyList : PyList → DataFrame
  | .flat v => dfOfFlat v
  | .nested rows => dfOfNested rows

/-- pd.DataFrame applied to a Series: one column named after the series. -/
def dfOfSeries (s : Series) : DataFrame :=
  ⟨rangeIdx s.vals.length, [(s.name, s.vals)]⟩

/-- The rename loop of clean_x_data: for each position i in range(nCols),
rename the column labelled (int) i to the string x_variable(i+1). -/
def renameXLoop (df : DataFrame) : DataFrame :=
  (List.range df.nCols).foldl
    (fun d i => d.renameCol (.i i) (.s ("x_variable" ++ toString (i + 1)))) df

/-- clean_x_data of r_linreg.py.  The other branch is unreachable behind
validate_data and is given a dummy value. -/
def clean_x_data : Inp → DataFrame
  | .frame df => df.resetIndex
  | .series s => (dfOfSeries s).resetIndex
  | .pylist l => renameXLoop (dfOfPyList l)
  | .other => ⟨[], []⟩

/-- clean_y_data of r_linreg.py: list data additionally has the column
labelled (int) 0 renamed to the string y. -/
def clean_y_data : Inp → DataFrame
  | .frame df => df.resetIndex
  | .series s => (dfOfSeries s).resetIndex
  | .pylist l => (dfOfPyList l).renameCol (.i 0) (.s "y")
  | .other => ⟨[], []⟩

/-- validate_data of r_linreg.py: some msg models printing msg and exiting
the program, none models passing validation. -/
def validate_data (x y : Inp) : Option String :=
  if !(x.isLSD && y.isLSD) then
    some "x and y must be of type list, pandas Series, or pandas DataFrame."
  else if x.pyLen = 0 ∨ y.pyLen = 0 then
    some "x or y contains no data."
  else
    match y with
    | .frame df =>
      if 1 < df.nCols then
        some "y must be a 1-dimensional list or pandas Series."
      else none
    | _ => none

/-- final_check of r_linreg.py: astype both frames, then the shape checks;
an error models printing the message and sys.exit. -/
def final_check (x y : DataFrame) : Except String (DataFrame × DataFrame) :=
  match x.astype? with
  | none => .error "Could not convert string in x to float."
  | some x1 =>
    match y.astype? with
    | none => .error "Could not convert string in y DataFrame to float."
    | some y1 =>
      if y1.nCols ≠ 1 then .error "y can only have one column."
      else if x1.nRows ≠ y1.nRows then
        .error "x and y do not have equal numbers of items."
      else .ok (x1, y1)

/-- The validation and coercion pipeline of linreg up to the point where
model fitting begins: validate_data, clean_x_data, clean_y_data, final_check.
An error models early program termination with the printed message; no branch
of this stage raises to the caller. -/
def linregPrep (x y : Inp) : Except String (DataFrame × DataFrame) :=
  match validate_data x y with
  | some m => .error m
  | none => final_check (clean_x_data x) (clean_y_data y)

/-- A numeric DataFrame as it reaches the modeling stage: string-labelled
columns of float64 values (exact rationals here).  Frames whose labels are
still integers crash create_model's string join before fitting, so they never
reach the code modelled from here on. -/
structure QFrame where
  cols : List (String × List ℚ)
deriving DecidableEq, Repr

def QFrame.colNames (X : QFrame) : List String := X.cols.map Prod.fst

/-- Number of rows seen by add_constant. -/
def QFrame.qRows (X : QFrame) : Nat := ((X.cols.head?).map (fun c => c.2.length)).getD 0

/-- X(col): the values of the first column with the given name (pandas
returns a Series only when the name is unique, see the Nodup hypotheses). -/
def QFrame.getCol (X : QFrame) (c : String) : List ℚ :=
  ((X.cols.find? (fun p => p.1 = c)).map Prod.snd).getD []

/-- X.columns.get_loc(col): position of the first column with that name. -/
def QFrame.getLoc (X : QFrame) (c : String) : Nat :=
  (X.cols.map Prod.fst).findIdx (fun n => n = c)

/-- pd.concat([a, b], axis=1). -/
def concatQ (a b : QFrame) : QFrame := ⟨a.cols ++ b.cols⟩

/-- Series.mean(). -/
def listMean (l : List ℚ) : ℚ := l.sum / l.length

/-- The values of the first (and after final_check only) column of y. -/
def firstColVals (y : QFrame) : List ℚ := ((y.cols.head?).map Prod.snd).getD []

/-- One row of statsmodels get_prediction summary_frame, after the column
renaming done in ancillary.pred. -/
structure PredFrame where
  mean : ℚ
  mean_se : ℚ
  lower_ci : ℚ
  upper_ci : ℚ
  lower_pi : ℚ
  upper_pi : ℚ
deriving DecidableEq, Repr

/-- The statsmodels RegressionResults object returned by fit(): an opaque
bundle of the attributes the repository reads, with floats as rationals, and
the predict and get_prediction methods used by ancillary.pred. -/
structure RegressionResults where
  params : List ℚ
  bse : List ℚ
  tvalues : List ℚ
  pvalues : List ℚ
  nobs : ℚ
  df_model : ℚ
  resid : List ℚ
  fittedvalues : List ℚ
  centered_tss : ℚ
  uncentered_tss : ℚ
  ess : ℚ
  ssr : ℚ
  mse_resid : ℚ
  mse_model : ℚ
  mse_total : ℚ
  rsquared : ℚ
  rsquared_adj : ℚ
  fvalue : ℚ
  f_pvalue : ℚ
  predictFn : List (String × ℚ) → ℚ
  getPrediction : List (String × ℚ) → ℚ → PredFrame

/-- The stepwise ANOVA table produced by anova_lm (contents opaque). -/
structure AnovaTable where
  rows : List (String × List ℚ)

/-- The textual OLS results table produced by summary() (contents opaque). -/
structure SummaryTable where
  text : String

/-- A real-valued statistic: either a rational or the (possibly irrational)
square root of a rational, kept symbolic so the embedding stays executable. -/
inductive RVal where
  | q (x : ℚ)
  | sqrtOf (x : ℚ)
deriving DecidableEq, Repr

/-- The external regression engine: statsmodels ols(formula, df).fit()
together with the helper functions the repository calls on its output.  The
interface laws record documented patsy and statsmodels semantics: a formula
"y_data ~ t1 + ... + tk" contains an implicit intercept, so the fitted
parameter vector has one entry per term plus one, and bse, tvalues and
pvalues all have the same length as params. -/
structure Engine where
  fit : List String → QFrame → QFrame → RegressionResults
  anovaLm : RegressionResults → AnovaTable
  summaryOf : RegressionResults → SummaryTable
  corrOf : QFrame → QFrame
  covParams : RegressionResults → QFrame
  fit_params_len : ∀ ts x y, (fit ts x y).params.length = ts.length + 1
  fit_bse_len : ∀ ts x y, (fit ts x y).bse.length = (fit ts x y).params.length
  fit_tvalues_len : ∀ ts x y, (fit ts x y).tvalues.length = (fit ts x y).params.length
  fit_pvalues_len : ∀ ts x y, (fit ts x y).pvalues.length = (fit ts x y).params.length

/-- statsmodels add_constant: prepend a column of ones named const. -/
def addConstCol (X : QFrame) : QFrame :=
  ⟨("const", List.replicate X.qRows 1) :: X.cols⟩

/-- The term names joined into the formula by create_model: columns[1:] of
add_constant(x_data) when include_constant, else all columns of x_data. -/
def formulaTerms (x_data : QFrame) (include_constant : Bool) : List String :=
  if include_constant then ((addConstCol x_data).cols.map Prod.fst).drop 1
  else x_data.cols.map Prod.fst

/-- The formula string built by create_model. -/
def mkFormula (x_data : QFrame) (include_constant : Bool) : String :=
  "y_data ~ " ++ String.intercalate " + " (formulaTerms x_data include_constant)

/-- create_model of r_linreg.py: optionally add the constant column, build
the formula over the term names, and fit through the engine. -/
def create_model (e : Engine) (x_data y_data : QFrame) (include_constant : Bool) :
    RegressionResults :=
  let xd := if include_constant then addConstCol x_data else x_data
  e.fit (formulaTerms x_data include_constant) xd y_data

/-- The rename dictionary of rename_columns, as a function on labels: start
from the identity, then map the enumerated columns (all of them, or all but
the first when has_constant) to X1, X2, ...; a duplicated dictionary key
keeps its last update. -/
def renameMap (names : List String) (has_constant : Bool) (c : String) : String :=
  let tagged := if has_constant then names.drop 1 else names
  match (tagged.enum.filter (fun p => p.2 = c)).getLast? with
  | some p => "X" ++ toString (p.1 + 1)
  | none => c

/-- rename_columns of r_linreg.py. -/
def rename_columns (df : QFrame) (has_constant : Bool) : QFrame :=
  ⟨df.cols.map (fun c => (renameMap (df.cols.map Prod.fst) has_constant c.1, c.2))⟩

/-- Numerator of the Durbin-Watson statistic: sum of squared successive
residual differences. -/
def diffsSq : List ℚ → ℚ
  | [] => 0
  | [_] => 0
  | a :: b :: t => (b - a) ^ 2 + diffsSq (b :: t)

/-- statsmodels durbin_watson on the residual vector. -/
def durbin_watson (es : List ℚ) : ℚ :=
  diffsSq es / (es.map (fun e => e ^ 2)).sum

/-- The 52 statistics assembled by multiple_regr, one field per key of the
all_data dictionary (the Durbin-Watson key holds durbinWatsonStat). -/
structure Stats where
  model_results : RegressionResults
  x_variable_names : List String
  y_variable_name : String
  n : ℚ
  y : QFrame
  X : QFrame
  sumx : List ℚ
  sumy : ℚ
  sumxy : List ℚ
  sumx2 : List ℚ
  sumy2 : ℚ
  x_bar : List ℚ
  y_bar : ℚ
  SXX : List ℚ
  SYY : ℚ
  SXY : List ℚ
  anova : AnovaTable
  anova_summary : SummaryTable
  coefficients : List ℚ
  intercept : ℚ
  slope : List ℚ
  SE_coefficients : List ℚ
  std_error_b0 : ℚ
  std_error_b1 : List ℚ
  t_statistics : List ℚ
  t_pvalues : List ℚ
  t_intercept : ℚ
  t_intercept_p : ℚ
  t_slope : List ℚ
  t_slope_p : List ℚ
  DFM : Nat
  DFR : ℚ
  DFT : ℚ
  k : ℚ
  SS_model : ℚ
  RSS : ℚ
  SS_total : ℚ
  MSE_total : ℚ
  MSE_model : ℚ
  MSE : ℚ
  SEE : RVal
  r_squared : ℚ
  r_squared_adj : ℚ
  correlation : RVal
  F : ℚ
  F_pvalue : ℚ
  durbinWatsonStat : ℚ
  corr_matrix : QFrame
  cov_matrix : QFrame
  fitted_values : QFrame
  residuals : QFrame
  const : Bool

/-- multiple_regr of r_linreg.py: fit through the engine, then compute the
by-hand statistics on the renamed X and the yi-renamed y, and collect all 52
values.  Python list indexing params(0) and bse(0) raises on an empty list
(the engine laws rule that out), modelled by headD. -/
def multipleRegr (e : Engine) (X y : QFrame) (const : Bool) : Stats :=
  let X_original := X
  let y_original := y
  let mr := create_model e X y const
  let anova_results := e.anovaLm mr
  let anova_summary_v := e.summaryOf mr
  let corr_matrix_v := e.corrOf (concatQ X y)
  let Xr := rename_columns X const
  let yi : List ℚ := firstColVals y
  let params := mr.params
  let n := mr.nobs
  let DFM := params.length
  let SS_total := if const then mr.centered_tss else mr.uncentered_tss
  let MSE_residuals := mr.mse_resid
  let t_statistics := mr.tvalues
  let t_pvalues := mr.pvalues
  let y_bar := listMean yi
  let col_names := Xr.cols.map Prod.fst
  let x_bar := Xr.cols.map (fun c => listMean c.2)
  let SE_coefficients := mr.bse
  { model_results := mr
    x_variable_names := X_original.cols.map Prod.fst
    y_variable_name := (y_original.cols.map Prod.fst).headD ""
    n := n
    y := ⟨[("yi", yi)]⟩
    X := Xr
    sumx := Xr.cols.map (fun c => c.2.sum)
    sumy := yi.sum
    sumxy := col_names.map (fun c => (((Xr.getCol c).zip yi).map (fun p => p.1 * p.2)).sum)
    sumx2 := col_names.map (fun c => ((Xr.getCol c).map (fun v => v ^ 2)).sum)
    sumy2 := (yi.map (fun v => v ^ 2)).sum
    x_bar := x_bar
    y_bar := y_bar
    SXX := col_names.map
      (fun c => ((Xr.getCol c).map (fun v => (v - x_bar.getD (Xr.getLoc c) 0) ^ 2)).sum)
    SYY := (yi.map (fun v => (v - y_bar) ^ 2)).sum
    SXY := col_names.map
      (fun c => (((Xr.getCol c).zip yi).map
        (fun p => (p.1 - x_bar.getD (Xr.getLoc c) 0) * (p.2 - y_bar))).sum)
    anova := anova_results
    anova_summary := anova_summary_v
    coefficients := params
    intercept := params.headD 0
    slope := params.tail
    SE_coefficients := SE_coefficients
    std_error_b0 := SE_coefficients.headD 0
    std_error_b1 := SE_coefficients.tail
    t_statistics := t_statistics
    t_pvalues := t_pvalues
    t_intercept := t_statistics.headD 0
    t_intercept_p := t_pvalues.headD 0
    t_slope := t_statistics.tail
    t_slope_p := t_pvalues.tail
    DFM := DFM
    DFR := n - DFM
    DFT := n - 1
    k := mr.df_model
    SS_model := mr.ess
    RSS := mr.ssr
    SS_total := SS_total
    MSE_total := mr.mse_total
    MSE_model := mr.mse_model
    MSE := MSE_residuals
    SEE := RVal.sqrtOf MSE_residuals
    r_squared := mr.rsquared
    r_squared_adj := mr.rsquared_adj
    correlation := RVal.sqrtOf mr.rsquared
    F := mr.fvalue
    F_pvalue := mr.f_pvalue
    durbinWatsonStat := durbin_watson mr.resid
    corr_matrix := corr_matrix_v
    cov_matrix := e.covParams mr
    fitted_values := ⟨[("fitted_values", mr.fittedvalues)]⟩
    residuals := ⟨[("residuals", mr.resid)]⟩
    const := const }

/-- A value stored in the all_data dictionary of multiple_regr. -/
inductive Entry where
  | model (m : RegressionResults)
  | names (l : List String)
  | str (s : String)
  | q (x : ℚ)
  | qs (l : List ℚ)
  | count (n : Nat)
  | rv (v : RVal)
  | frame (f : QFrame)
  | tbl (t : AnovaTable)
  | txt (t : SummaryTable)
  | flag (b : Bool)

/-- The all_data dictionary literal of multiple_regr, in source order. -/
def statsAssoc (st : Stats) : List (String × Entry) :=
  [("model_results", .model st.model_results),
   ("x_variable_names", .names st.x_variable_names),
   ("y_variable_name", .str st.y_variable_name),
   ("n", .q st.n),
   ("y", .frame st.y),
   ("X", .frame st.X),
   ("sumx", .qs st.sumx),
   ("sumy", .q st.sumy),
   ("sumxy", .qs st.sumxy),
   ("sumx2", .qs st.sumx2),
   ("sumy2", .q st.sumy2),
   ("x_bar", .qs st.x_bar),
   ("y_bar", .q st.y_bar),
   ("SXX", .qs st.SXX),
   ("SYY", .q st.SYY),
   ("SXY", .qs st.SXY),
   ("anova", .tbl st.anova),
   ("anova_summary", .txt st.anova_summary),
   ("coefficients", .qs st.coefficients),
   ("intercept", .q st.intercept),
   ("slope", .qs st.slope),
   ("SE_coefficients", .qs st.SE_coefficients),
   ("std_error_b0", .q st.std_error_b0),
   ("std_error_b1", .qs st.std_error_b1),
   ("t_statistics", .qs st.t_statistics),
   ("t_pvalues", .qs st.t_pvalues),
   ("t_intercept", .q st.t_intercept),
   ("t_intercept_p", .q st.t_intercept_p),
   ("t_slope", .qs st.t_slope),
   ("t_slope_p", .qs st.t_slope_p),
   ("DFM", .count st.DFM),
   ("DFR", .q st.DFR),
   ("DFT", .q st.DFT),
   ("k", .q st.k),
   ("SS_model", .q st.SS_model),
   ("RSS", .q st.RSS),
   ("SS_total", .q st.SS_total),
   ("MSE_total", .q st.MSE_total),
   ("MSE_model", .q st.MSE_model),
   ("MSE", .q st.MSE),
   ("SEE", .rv st.SEE),
   ("r_squared", .q st.r_squared),
   ("r_squared_adj", .q st.r_squared_adj),
   ("correlation", .rv st.correlation),
   ("F", .q st.F),
   ("F_pvalue", .q st.F_pvalue),
   ("Durbin-Watson", .q st.durbinWatsonStat),
   ("corr_matrix", .frame st.corr_matrix),
   ("cov_matrix", .frame st.cov_matrix),
   ("fitted_values", .frame st.fitted_values),
   ("residuals", .frame st.residuals),
   ("const", .flag st.const)]

/-- included_vars of info.py, verbatim. -/
def included_vars : List (List String) :=
  [["model_results"],
   ["x_variable_names", "y_variable_name", "n", "y", "X"],
   ["sumx", "sumy", "sumxy", "sumx2", "sumy2", "x_bar", "y_bar", "SXX", "SYY", "SXY"],
   ["anova", "anova_summary", "coefficients", "intercept", "slope",
    "SE_coefficients", "std_error_b0", "std_error_b1", "t_statistics",
    "t_pvalues", "t_intercept", "t_intercept_p", "t_slope", "t_slope_p",
    "DFM", "DFR", "DFT", "k"],
   ["SS_model", "RSS", "SS_total", "MSE_total", "MSE_model", "MSE", "SEE",
    "r_squared", "r_squared_adj", "correlation", "F", "F_pvalue"],
   ["Durbin-Watson", "corr_matrix", "cov_matrix", "fitted_values", "residuals"],
   ["const"]]

/-- The key_list built in multiple_regr by flattening included_vars. -/
def keyList : List String := included_vars.flatten

/-- Lookup in an association list, first match. -/
def alookup {β : Type} : List (String × β) → String → Option β
  | [], _ => none
  | c :: t, k2 => if c.1 = k2 then some c.2 else alookup t k2

/-- The developer check and OrderedDict construction at the end of
multiple_regr: exit if some all_data key is missing from key_list or vice
versa, else rebuild the dictionary in key_list order. -/
def allStatsBuild (allData : List (String × Entry)) : Except String (List (String × Entry)) :=
  if (allData.map Prod.fst).all (fun k2 => keyList.contains k2) then
    if keyList.all (fun k2 => (allData.map Prod.fst).contains k2) then
      .ok (keyList.filterMap (fun k2 => (alookup allData k2).map (fun v => (k2, v))))
    else .error "The key from included_vars() was not found in all_data."
  else .error "The key from all_data was not found in included_vars()."

/-- The ordered dictionary linreg returns: multiple_regr followed by the
key ordering step. -/
def linregStats (e : Engine) (X y : QFrame) (const : Bool) :
    Except String (List (String × Entry)) :=
  allStatsBuild (statsAssoc (multipleRegr e X y const))

/-- The coefficient-row labels built by reports.summary. -/
def summaryLabels (st : Stats) : List String :=
  if st.const then "CONSTANT" :: st.x_variable_names else st.x_variable_names

/-- The coefficient rows printed by reports.summary: for the i-th label, the
truncated label and entry i of the coefficient, standard error, t and p
lists (Python indexing is total here because the label list is never longer
than those lists). -/
def summaryRows (st : Stats) : List (String × ℚ × ℚ × ℚ × ℚ) :=
  (summaryLabels st).enum.map (fun p =>
    (p.2.take 14, st.coefficients.getD p.1 0, st.SE_coefficients.getD p.1 0,
     st.t_statistics.getD p.1 0, st.t_pvalues.getD p.1 0))

/-- Python round to the nearest integer, ties to even. -/
def halfEven (s : ℚ) : ℤ :=
  let f := ⌊s⌋
  let r := s - f
  if r < 1 / 2 then f
  else if 1 / 2 < r then f + 1
  else if f % 2 = 0 then f else f + 1

/-- Python round(x, 2) on exact rationals. -/
def pyRound2 (x : ℚ) : ℚ := halfEven (x * 100) / 100

/-- Outcome of ancillary.pred: an uncaught IndexError, an early return of
None after the mismatch message, or the returned prediction interval. -/
inductive PredOut where
  | raised
  | noneRet
  | interval (lo hi : ℚ)
deriving DecidableEq, Repr

/-- The per-value-set loop of ancillary.pred, carrying the summary frame of
the previous iteration; after the loop the bounds of the last frame are
returned. -/
def predLoop (mr : RegressionResults) (xvars : List String) (alpha : ℚ) :
    List (List ℚ) → PredFrame → PredOut
  | [], last => .interval last.lower_pi last.upper_pi
  | v :: rest, _ =>
    if xvars.length ≠ v.length then .noneRet
    else predLoop mr xvars alpha rest (mr.getPrediction (xvars.zip v) alpha)

/-- ancillary.pred for a submitted list of X value sets.  An empty submission
hits X(0) before the loop and raises IndexError. -/
def pred (mr : RegressionResults) (x_variables : List String)
    (X : List (List ℚ)) (ci : ℚ) : PredOut :=
  let alpha := pyRound2 (1 - ci / 100)
  match X with
  | [] => .raised
  | v :: rest =>
    if x_variables.length ≠ v.length then .noneRet
    else predLoop mr x_variables alpha rest
        (mr.getPrediction (x_variables.zip v) alpha)

/-- ancillary.pred consuming the results dictionary by key: it reads
x_variable_names and model_results. -/
def predOnStats (st : Stats) (X : List (List ℚ)) (ci : ℚ) : PredOut :=
  pred st.model_results st.x_variable_names X ci

/-- Claim C6 as stated, at one input: any mismatching value set gives an
error return of None, otherwise the prediction interval of the last
submitted value set is returned. -/
def predClaimAt (mr : RegressionResults) (xvars : List String)
    (X : List (List ℚ)) (ci : ℚ) : Prop :=
  ((∃ v ∈ X, v.length ≠ xvars.length) → pred mr xvars X ci = .noneRet) ∧
  ((∀ v ∈ X, v.length = xvars.length) →
    ∃ last, X.getLast? = some last ∧
      pred mr xvars X ci =
        .interval ((mr.getPrediction (xvars.zip last) (pyRound2 (1 - ci / 100))).lower_pi)
          ((mr.getPrediction (xvars.zip last) (pyRound2 (1 - ci / 100))).upper_pi))

/-- A python heap of DataFrame objects; transform.py functions receive a
reference into it, so that mutation of the caller's frame is observable. -/
abbrev Heap := List DataFrame

/-- Dereference. -/
def hGet (h : Heap) (r : Nat) : DataFrame := List.getD h r ⟨[], []⟩

/-- copy.deepcopy(df): allocate a fresh frame with the same contents. -/
def deepcopyH (h : Heap) (r : Nat) : Heap × Nat := (h ++ [hGet h r], List.length h)

/-- df(name) = v on a frame value: replace every column of that name, or
append a new one. -/
def DataFrame.assignCol (df : DataFrame) (name : Label) (v : List Val) : DataFrame :=
  if name ∈ df.cols.map Prod.fst then
    ⟨df.idx, df.cols.map (fun c => if c.1 = name then (name, v) else c)⟩
  else ⟨df.idx, df.cols ++ [(name, v)]⟩

/-- df(name) = v through a reference: mutate the heap cell. -/
def hAssign (h : Heap) (r : Nat) (name : Label) (v : List Val) : Heap :=
  List.set h r ((hGet h r).assignCol name v)

/-- Column read df(c) on a frame value. -/
def getColV (df : DataFrame) (c : Label) : List Val :=
  ((df.cols.find? (fun p => p.1 = c)).map Prod.snd).getD []

/-- Cellwise product of two numeric Series; a string operand makes the pandas
multiplication raise, modelled as none. -/
def valMul? : Val → Val → Option Val
  | .num a, .num b => some (.num (a * b))
  | .num _, .nan => some .nan
  | .nan, .num _ => some .nan
  | .nan, .nan => some .nan
  | _, _ => none

def colMul? : List Val → List Val → Option (List Val)
  | [], _ => some []
  | _ :: _, [] => some []
  | a :: t, b :: u =>
    match valMul? a b, colMul? t u with
    | some v, some w => some (v :: w)
    | _, _ => none

/-- Cellwise power of a numeric Series. -/
def valPow? (v : Val) (n : Nat) : Option Val :=
  match v with
  | .num a => some (.num (a ^ n))
  | .nan => some .nan
  | _ => none

def colPow? : List Val → Nat → Option (List Val)
  | [], _ => some []
  | a :: t, n =>
    match valPow? a n, colPow? t n with
    | some v, some w => some (v :: w)
    | _, _ => none

/-- pandas nunique: number of distinct non-NaN values. -/
def nuniqueV (l : List Val) : Nat :=
  ((l.filter (fun v => v ≠ Val.nan)).dedup).length

/-- Outcome of a transform.py call: a returned reference, a printed message
followed by sys.exit, or an uncaught python exception. -/
inductive TResult where
  | ok (r : Nat)
  | exited (msg : String)
  | raised
deriving DecidableEq, Repr

/-- transform.interaction: deepcopy, membership check on the copy, then add
the product column to the copy. -/
def interactionT (h : Heap) (r : Nat) (column1 column2 : String) : Heap × TResult :=
  let h1 := (deepcopyH h r).1
  let r1 := (deepcopyH h r).2
  let dfc := hGet h1 r1
  if Label.s column1 ∉ dfc.cols.map Prod.fst ∨ Label.s column2 ∉ dfc.cols.map Prod.fst then
    (h1, .exited "One or both columns are not in the DataFrame")
  else
    match colMul? (getColV dfc (.s column1)) (getColV dfc (.s column2)) with
    | none => (h1, .raised)
    | some v => (hAssign h1 r1 (.s (column1 ++ "*" ++ column2)) v, .ok r1)

/-- transform.poly: deepcopy, order checks (the round check never fires for
an integer order), membership check, then add the power column to the copy. -/
def polyT (h : Heap) (r : Nat) (column : String) (order : ℤ) : Heap × TResult :=
  let h1 := (deepcopyH h r).1
  let r1 := (deepcopyH h r).2
  let dfc := hGet h1 r1
  if order < 2 then (h1, .exited "Order of a polynomial must be at least 2.")
  else if Label.s column ∉ dfc.cols.map Prod.fst then
    (h1, .exited ("Column " ++ column ++ " not found in DataFrame"))
  else
    match colPow? (getColV dfc (.s column)) order.toNat with
    | none => (h1, .raised)
    | some v => (hAssign h1 r1 (.s (column ++ toString order)) v, .ok r1)

/-- transform.encode, with the sklearn LabelEncoder abstracted as enc.  The
source reads df(column).nunique() before its membership check, so a missing
column raises KeyError instead of exiting. -/
def encodeT (enc : List Val → List Val) (h : Heap) (r : Nat) (column : String) :
    Heap × TResult :=
  let h1 := (deepcopyH h r).1
  let r1 := (deepcopyH h r).2
  let dfc := hGet h1 r1
  if Label.s column ∉ dfc.cols.map Prod.fst then (h1, .raised)
  else if nuniqueV (getColV dfc (.s column)) ≠ 2 then
    (h1, .exited "Column must have exactly two unique values.")
  else (hAssign h1 r1 (.s column) (enc (getColV dfc (.s column))), .ok r1)

/-- transform.dummy, with the sklearn OneHotEncoder abstracted as encCols:
no copy is taken; pd.concat builds a fresh frame from the original and the
encoded columns (index alignment of concat is not modelled). -/
def dummyT (encCols : List Val → List (String × List Val)) (h : Heap) (r : Nat)
    (column : String) : Heap × TResult :=
  let dfc := hGet h r
  if Label.s column ∉ dfc.cols.map Prod.fst then
    (h, .exited "Error: Column name not found in DataFrame.")
  else if 4 < nuniqueV (getColV dfc (.s column)) then
    (h, .exited "Encoding a column with more than 4 unique values is not supported.")
  else
    let newdf : DataFrame :=
      ⟨dfc.idx, dfc.cols ++ (encCols (getColV dfc (.s column))).map (fun p => (Label.s p.1, p.2))⟩
    (h ++ [newdf], .ok (List.length h))

/-- The keys of the all_data dictionary literal, in source order. -/
def allDataKeys : List String :=
  ["model_results", "x_variable_names", "y_variable_name", "n", "y", "X",
   "sumx", "sumy", "sumxy", "sumx2", "sumy2", "x_bar", "y_bar", "SXX", "SYY",
   "SXY", "anova", "anova_summary", "coefficients", "intercept", "slope",
   "SE_coefficients", "std_error_b0", "std_error_b1", "t_statistics",
   "t_pvalues", "t_intercept", "t_intercept_p", "t_slope", "t_slope_p",
   "DFM", "DFR", "DFT", "k", "SS_model", "RSS", "SS_total", "MSE_total",
   "MSE_model", "MSE", "SEE", "r_squared", "r_squared_adj", "correlation",
   "F", "F_pvalue", "Durbin-Watson", "corr_matrix", "cov_matrix",
   "fitted_values", "residuals", "const"]

lemma statsAssoc_keys (st : Stats) : (statsAssoc st).map Prod.fst = allDataKeys := rfl

lemma alookup_isSome {β : Type} (A : List (String × β)) (k2 : String) :
    (alookup A k2).isSome ↔ k2 ∈ A.map Prod.fst := by
  induction A with
  | nil => simp [alookup]
  | cons c t ih =>
    by_cases h : c.1 = k2
    · simp [alookup, h]
    · simp only [alookup, if_neg h, List.map_cons, List.mem_cons, ih]
      exact ⟨fun hm => Or.inr hm, fun hm => hm.elim (fun he => absurd he.symm h) id⟩

lemma filterMap_lookup_keys {β : Type} (A : List (String × β)) (keys : List String)
    (h : ∀ k2 ∈ keys, (alookup A k2).isSome) :
    (keys.filterMap (fun k2 => (alookup A k2).map (fun v => (k2, v)))).map Prod.fst = keys := by
  induction keys with
  | nil => rfl
  | cons a t ih =>
    obtain ⟨v, hv⟩ := Option.isSome_iff_exists.mp (h a (by simp))
    simp only [List.filterMap_cons, hv, Option.map_some', List.map_cons]
    exact congrArg (a :: ·) (ih (fun k2 hk => h k2 (by simp [hk])))

/-- Claim C1: for every input on which linreg returns, the returned value is
an ordered dictionary whose keys are exactly the 52 names produced by
flattening info.included_vars in order, model_results first through const
last, with no duplicate, so every statistic can be consumed by key in a fixed
iteration order. -/
theorem claim_C1_result_keys (e : Engine) (X y : QFrame) (c : Bool) :
    ∃ l, linregStats e X y c = .ok l ∧ l.map Prod.fst = keyList ∧
      keyList.length = 52 ∧ keyList.head? = some "model_results" ∧
      keyList.getLast? = some "const" ∧ keyList.Nodup := by
  refine ⟨keyList.filterMap
      (fun k2 => (alookup (statsAssoc (multipleRegr e X y c)) k2).map (fun v => (k2, v))),
    ?_, ?_, by decide, by decide, by decide, by decide⟩
  · unfold linregStats allStatsBuild
    rw [statsAssoc_keys, if_pos (by decide), if_pos (by decide)]
  · refine filterMap_lookup_keys _ _ (fun k2 hk => ?_)
    rw [alookup_isSome, statsAssoc_keys]
    exact (by decide : ∀ x ∈ keyList, x ∈ allDataKeys) k2 hk

/-- Claim C5: the estimation outputs stored by multiple_regr are taken
verbatim from the fitted engine results object, which is itself stored as
model_results. -/
theorem claim_C5_engine_verbatim (e : Engine) (X y : QFrame) (c : Bool) :
    (multipleRegr e X y c).model_results = create_model e X y c ∧
    (multipleRegr e X y c).coefficients = (create_model e X y c).params ∧
    (multipleRegr e X y c).SE_coefficients = (create_model e X y c).bse ∧
    (multipleRegr e X y c).t_statistics = (create_model e X y c).tvalues ∧
    (multipleRegr e X y c).t_pvalues = (create_model e X y c).pvalues ∧
    (multipleRegr e X y c).F = (create_model e X y c).fvalue ∧
    (multipleRegr e X y c).F_pvalue = (create_model e X y c).f_pvalue ∧
    (multipleRegr e X y c).r_squared = (create_model e X y c).rsquared ∧
    (multipleRegr e X y c).r_squared_adj = (create_model e X y c).rsquared_adj ∧
    (multipleRegr e X y c).RSS = (create_model e X y c).ssr ∧
    (multipleRegr e X y c).SS_model = (create_model e X y c).ess ∧
    (multipleRegr e X y c).fitted_values =
      QFrame.mk [("fitted_values", (create_model e X y c).fittedvalues)] ∧
    (multipleRegr e X y c).residuals =
      QFrame.mk [("residuals", (create_model e X y c).resid)] :=
  ⟨rfl, rfl, rfl, rfl, rfl, rfl, rfl, rfl, rfl, rfl, rfl, rfl, rfl⟩

lemma headD_cons_tail {l : List ℚ} (h : l ≠ []) : l = l.headD 0 :: l.tail := by
  cases l with
  | nil => exact absurd rfl h
  | cons a t => rfl

lemma params_ne_nil (e : Engine) (X y : QFrame) (c : Bool) :
    (create_model e X y c).params ≠ [] := by
  have h := e.fit_params_len (formulaTerms X c) (if c then addConstCol X else X) y
  intro hn
  rw [show e.fit (formulaTerms X c) (if c then addConstCol X else X) y = create_model e X y c from rfl,
    hn] at h
  simp at h

/-- Claim C9: regardless of the const flag, the per-coefficient lists
decompose as head plus tail: coefficients is intercept followed by slope,
SE_coefficients is std_error_b0 followed by std_error_b1, t_statistics is
t_intercept followed by t_slope, and t_pvalues is t_intercept_p followed by
t_slope_p; in particular when const is false the intercept entry holds the
first fitted coefficient. -/
theorem claim_C9_head_tail (e : Engine) (X y : QFrame) (c : Bool) :
    (multipleRegr e X y c).coefficients =
      (multipleRegr e X y c).intercept :: (multipleRegr e X y c).slope ∧
    (multipleRegr e X y c).SE_coefficients =
      (multipleRegr e X y c).std_error_b0 :: (multipleRegr e X y c).std_error_b1 ∧
    (multipleRegr e X y c).t_statistics =
      (multipleRegr e X y c).t_intercept :: (multipleRegr e X y c).t_slope ∧
    (multipleRegr e X y c).t_pvalues =
      (multipleRegr e X y c).t_intercept_p :: (multipleRegr e X y c).t_slope_p := by
  have hcm : create_model e X y c = e.fit (formulaTerms X c) (if c then addConstCol X else X) y := rfl
  have hp : (create_model e X y c).params ≠ [] := params_ne_nil e X y c
  have hlen : 0 < (create_model e X y c).params.length :=
    List.length_pos.mpr hp
  have hb : (create_model e X y c).bse ≠ [] := by
    refine List.length_pos.mp ?_
    rw [hcm, e.fit_bse_len]
    rw [hcm] at hlen; exact hlen
  have ht : (create_model e X y c).tvalues ≠ [] := by
    refine List.length_pos.mp ?_
    rw [hcm, e.fit_tvalues_len]
    rw [hcm] at hlen; exact hlen
  have hv : (create_model e X y c).pvalues ≠ [] := by
    refine List.length_pos.mp ?_
    rw [hcm, e.fit_pvalues_len]
    rw [hcm] at hlen; exact hlen
  exact ⟨headD_cons_tail hp, headD_cons_tail hb, headD_cons_tail ht, headD_cons_tail hv⟩

/-- A concrete engine satisfying the interface laws, used to evaluate the
embedding at concrete inputs. -/
def zeroRR (m : Nat) : RegressionResults :=
  { params := List.replicate m 0
    bse := List.replicate m 0
    tvalues := List.replicate m 0
    pvalues := List.replicate m 0
    nobs := 0
    df_model := 0
    resid := []
    fittedvalues := []
    centered_tss := 0
    uncentered_tss := 0
    ess := 0
    ssr := 0
    mse_resid := 0
    mse_model := 0
    mse_total := 0
    rsquared := 0
    rsquared_adj := 0
    fvalue := 0
    f_pvalue := 0
    predictFn := fun _ => 0
    getPrediction := fun _ _ => ⟨0, 0, 0, 0, 1, 2⟩ }

def zeroEngine : Engine :=
  { fit := fun ts _ _ => zeroRR (ts.length + 1)
    anovaLm := fun _ => ⟨[]⟩
    summaryOf := fun _ => ⟨""⟩
    corrOf := fun _ => ⟨[]⟩
    covParams := fun _ => ⟨[]⟩
    fit_params_len := fun ts _ _ => by simp [zeroRR]
    fit_bse_len := fun ts _ _ => by simp [zeroRR]
    fit_tvalues_len := fun ts _ _ => by simp [zeroRR]
    fit_pvalues_len := fun ts _ _ => by simp [zeroRR] }

lemma rangeIdx_length (n : Nat) : (rangeIdx n).length = n := by
  show ((List.range n).map Int.ofNat).length = n
  rw [List.length_map, List.length_range]

lemma renameCol_idx (df : DataFrame) (o n : Label) : (df.renameCol o n).idx = df.idx := rfl

lemma renameCol_snds (df : DataFrame) (o n : Label) :
    (df.renameCol o n).cols.map Prod.snd = df.cols.map Prod.snd := by
  show (df.cols.map _).map Prod.snd = _
  rw [List.map_map]
  refine List.map_congr_left (fun c _ => ?_)
  by_cases h : c.1 = o <;> simp [h]

lemma renameCol_length (df : DataFrame) (o n : Label) :
    (df.renameCol o n).cols.length = df.cols.length := by
  simp [DataFrame.renameCol]

lemma renameXLoop_core (l : List Nat) (df : DataFrame) :
    (l.foldl (fun d i => d.renameCol (.i i) (.s ("x_variable" ++ toString (i + 1)))) df).idx
      = df.idx ∧
    (l.foldl (fun d i => d.renameCol (.i i) (.s ("x_variable" ++ toString (i + 1)))) df).cols.map
        Prod.snd = df.cols.map Prod.snd := by
  induction l generalizing df with
  | nil => exact ⟨rfl, rfl⟩
  | cons a t ih =>
    rw [List.foldl_cons]
    refine ⟨?_, ?_⟩
    · rw [(ih _).1]; exact renameCol_idx df _ _
    · rw [(ih _).2]; exact renameCol_snds df _ _

lemma renameXLoop_idx (df : DataFrame) : (renameXLoop df).idx = df.idx :=
  (renameXLoop_core _ df).1

lemma renameXLoop_snds (df : DataFrame) :
    (renameXLoop df).cols.map Prod.snd = df.cols.map Prod.snd :=
  (renameXLoop_core _ df).2

lemma renameXLoop_vals (df : DataFrame) : (renameXLoop df).vals = df.vals := by
  unfold DataFrame.vals
  rw [renameXLoop_snds]

lemma renameCol_vals (df : DataFrame) (o n : Label) : (df.renameCol o n).vals = df.vals := by
  unfold DataFrame.vals
  rw [renameCol_snds]

lemma resetIndex_vals (df : DataFrame) : df.resetIndex.vals = df.vals := rfl

lemma colConv?_eq_none (l : List Val) :
    colConv? l = none ↔ ∃ v ∈ l, v.toFloat? = none := by
  induction l with
  | nil => simp [colConv?]
  | cons v t ih =>
    cases hv : v.toFloat? with
    | none => simp [colConv?, hv]
    | some w =>
      cases ht : colConv? t with
      | none =>
        refine iff_of_true ?_ ?_
        · simp [colConv?, hv, ht]
        · obtain ⟨u, hu, hb⟩ := ih.mp ht
          exact ⟨u, List.mem_cons_of_mem _ hu, hb⟩
      | some t2 =>
        simp only [colConv?, hv, ht]
        constructor
        · intro h; cases h
        · rintro ⟨u, hu, hb⟩
          rcases List.mem_cons.mp hu with h | h
          · rw [h] at hb; rw [hb] at hv; cases hv
          · exact absurd (ih.mpr ⟨u, h, hb⟩) (by rw [ht]; intro h2; cases h2)

lemma colsConv?_eq_none (cs : List (Label × List Val)) :
    colsConv? cs = none ↔ ∃ c ∈ cs, colConv? c.2 = none := by
  induction cs with
  | nil => simp [colsConv?]
  | cons c t ih =>
    cases hc : colConv? c.2 with
    | none => simp [colsConv?, hc]
    | some v =>
      cases ht : colsConv? t with
      | none =>
        refine iff_of_true ?_ ?_
        · simp [colsConv?, hc, ht]
        · obtain ⟨u, hu, hb⟩ := ih.mp ht
          exact ⟨u, List.mem_cons_of_mem _ hu, hb⟩
      | some t2 =>
        simp only [colsConv?, hc, ht]
        constructor
        · intro h; cases h
        · rintro ⟨u, hu, hb⟩
          rcases List.mem_cons.mp hu with h | h
          · rw [h] at hb; rw [hb] at hc; cases hc
          · exact absurd (ih.mpr ⟨u, h, hb⟩) (by rw [ht]; intro h2; cases h2)

lemma astype?_eq_none (df : DataFrame) :
    df.astype? = none ↔ ∃ v ∈ df.vals, v.toFloat? = none := by
  unfold DataFrame.astype?
  rw [Option.map_eq_none', colsConv?_eq_none]
  unfold DataFrame.vals
  constructor
  · rintro ⟨c, hc, hb⟩
    obtain ⟨v, hv, hvb⟩ := (colConv?_eq_none _).mp hb
    exact ⟨v, List.mem_flatten.mpr ⟨c.2, List.mem_map.mpr ⟨c, hc, rfl⟩, hv⟩, hvb⟩
  · rintro ⟨v, hv, hvb⟩
    obtain ⟨s, hs, hvs⟩ := List.mem_flatten.mp hv
    obtain ⟨c, hc, rfl⟩ := List.mem_map.mp hs
    exact ⟨c, hc, (colConv?_eq_none _).mpr ⟨v, hvs, hvb⟩⟩

lemma colsConv?_length (cs cs2 : List (Label × List Val))
    (h : colsConv? cs = some cs2) : cs2.length = cs.length := by
  induction cs generalizing cs2 with
  | nil => cases h; rfl
  | cons c t ih =>
    unfold colsConv? at h
    cases hc : colConv? c.2 with
    | none => rw [hc] at h; cases h
    | some v =>
      rw [hc] at h
      cases ht : colsConv? t with
      | none => rw [ht] at h; cases h
      | some t2 =>
        rw [ht] at h
        cases h
        simp [ih t2 ht]

lemma astype?_some_shape (df d2 : DataFrame) (h : df.astype? = some d2) :
    d2.idx = df.idx ∧ d2.nCols = df.nCols := by
  unfold DataFrame.astype? at h
  cases hc : colsConv? df.cols with
  | none => rw [hc] at h; cases h
  | some cs => rw [hc] at h; cases h; exact ⟨rfl, colsConv?_length _ _ hc⟩

lemma length_le_maxRowLen (rows : List (List Val)) (r : List Val) (h : r ∈ rows) :
    r.length ≤ maxRowLen rows := by
  induction rows with
  | nil => cases h
  | cons r0 t ih =>
    rcases List.mem_cons.mp h with h0 | h0
    · rw [h0]; exact le_max_left _ _
    · exact le_trans (ih h0) (le_max_right _ _)

lemma dfOfNested_bad (rows : List (List Val)) :
    (∃ v ∈ (dfOfNested rows).vals, v.toFloat? = none) ↔
      ∃ r ∈ rows, ∃ v ∈ r, v.toFloat? = none := by
  constructor
  · rintro ⟨v, hv, hb⟩
    obtain ⟨s, hs, hvs⟩ := List.mem_flatten.mp hv
    obtain ⟨c, hc, rfl⟩ := List.mem_map.mp hs
    obtain ⟨j, _, rfl⟩ := List.mem_map.mp hc
    obtain ⟨r, hr, rfl⟩ := List.mem_map.mp hvs
    cases hg : r.get? j with
    | none => rw [hg] at hb; cases hb
    | some w =>
      rw [hg] at hb
      exact ⟨r, hr, w, List.get?_mem hg, hb⟩
  · rintro ⟨r, hr, v, hv, hb⟩
    obtain ⟨⟨j, hj⟩, rfl⟩ := List.get_of_mem hv
    have hjm : j < maxRowLen rows := lt_of_lt_of_le hj (length_le_maxRowLen rows r hr)
    refine ⟨r.get ⟨j, hj⟩, ?_, hb⟩
    unfold dfOfNested DataFrame.vals
    refine List.mem_flatten.mpr ⟨rows.map (fun r2 => (r2.get? j).getD Val.nan), ?_, ?_⟩
    · rw [List.map_map]
      exact List.mem_map.mpr ⟨j, List.mem_range.mpr hjm, rfl⟩
    · refine List.mem_map.mpr ⟨r, hr, ?_⟩
      rw [List.get?_eq_get hj]
      rfl

/-- A bad (non-convertible) cell in the cleaned x frame is the same thing as
a bad cell among the submitted x data: NaN padding always converts. -/
lemma cleanx_bad (x : Inp) :
    (∃ v ∈ (clean_x_data x).vals, v.toFloat? = none) ↔
      ∃ v ∈ x.cells, v.toFloat? = none := by
  cases x with
  | frame df => exact Iff.rfl
  | series s => simp [clean_x_data, dfOfSeries, DataFrame.resetIndex, DataFrame.vals, Inp.cells]
  | other => simp [clean_x_data, DataFrame.vals, Inp.cells]
  | pylist l =>
    cases l with
    | flat v =>
      rw [show clean_x_data (.pylist (.flat v)) = renameXLoop (dfOfFlat v) from rfl,
        renameXLoop_vals]
      simp [dfOfFlat, DataFrame.vals, Inp.cells]
    | nested rows =>
      rw [show clean_x_data (.pylist (.nested rows)) = renameXLoop (dfOfNested rows) from rfl,
        renameXLoop_vals]
      rw [dfOfNested_bad]
      simp only [Inp.cells, List.mem_flatten]
      tauto

lemma cleany_bad (y : Inp) :
    (∃ v ∈ (clean_y_data y).vals, v.toFloat? = none) ↔
      ∃ v ∈ y.cells, v.toFloat? = none := by
  cases y with
  | frame df => exact Iff.rfl
  | series s => simp [clean_y_data, dfOfSeries, DataFrame.resetIndex, DataFrame.vals, Inp.cells]
  | other => simp [clean_y_data, DataFrame.vals, Inp.cells]
  | pylist l =>
    cases l with
    | flat v =>
      rw [show clean_y_data (.pylist (.flat v)) = (dfOfFlat v).renameCol (.i 0) (.s "y") from rfl,
        renameCol_vals]
      simp [dfOfFlat, DataFrame.vals, Inp.cells]
    | nested rows =>
      rw [show clean_y_data (.pylist (.nested rows))
            = (dfOfNested rows).renameCol (.i 0) (.s "y") from rfl,
        renameCol_vals]
      rw [dfOfNested_bad]
      simp only [Inp.cells, List.mem_flatten]
      tauto

def isErr {ε α : Type} : Except ε α → Bool
  | .error _ => true
  | .ok _ => false

lemma validate_none_iff (x y : Inp) :
    validate_data x y = none ↔
      x.isLSD = true ∧ y.isLSD = true ∧ x.pyLen ≠ 0 ∧ y.pyLen ≠ 0 ∧
        (∀ df, y = .frame df → df.nCols ≤ 1) := by
  unfold validate_data
  constructor
  · intro h
    by_cases hx : x.isLSD = true
    · by_cases hy : y.isLSD = true
      · rw [if_neg (by simp [hx, hy])] at h
        by_cases hl : x.pyLen = 0 ∨ y.pyLen = 0
        · rw [if_pos hl] at h; cases h
        · rw [if_neg hl] at h
          push_neg at hl
          refine ⟨hx, hy, hl.1, hl.2, ?_⟩
          rintro df rfl
          by_cases hc : 1 < df.nCols
          · simp only [if_pos hc] at h; cases h
          · omega
      · rw [if_pos (by simp [hy])] at h; cases h
    · rw [if_pos (by simp [hx])] at h; cases h
  · rintro ⟨hx, hy, hlx, hly, hdf⟩
    rw [if_neg (by simp [hx, hy]), if_neg (by simp [hlx, hly])]
    cases y with
    | frame df =>
      have := hdf df rfl
      simp only [if_neg (by omega : ¬ 1 < df.nCols)]
    | pylist l => rfl
    | series s => rfl
    | other => rfl

lemma final_check_err (cx cy : DataFrame) :
    isErr (final_check cx cy) = true ↔
      cx.astype? = none ∨ cy.astype? = none ∨ cy.nCols ≠ 1 ∨ cx.nRows ≠ cy.nRows := by
  unfold final_check
  cases hx : cx.astype? with
  | none => simp [isErr, hx]
  | some x1 =>
    cases hy : cy.astype? with
    | none => simp [isErr, hy]
    | some y1 =>
      dsimp only
      have hxs := astype?_some_shape cx x1 hx
      have hys := astype?_some_shape cy y1 hy
      have hxr : x1.nRows = cx.nRows := by unfold DataFrame.nRows; rw [hxs.1]
      have hyr : y1.nRows = cy.nRows := by unfold DataFrame.nRows; rw [hys.1]
      by_cases h1 : y1.nCols = 1
      · by_cases h2 : x1.nRows = y1.nRows
        · rw [if_neg (by omega), if_neg (by omega)]
          simp only [isErr]
          constructor
          · intro h; cases h
          · rintro (h | h | h | h)
            · cases h
            · cases h
            · rw [hys.2] at h1; exact absurd h1 h
            · rw [hxr, hyr] at h2; exact absurd h2 h
        · rw [if_neg (by omega), if_pos (by omega)]
          refine iff_of_true rfl ?_
          rw [hxr, hyr] at h2
          exact Or.inr (Or.inr (Or.inr h2))
      · rw [if_pos (by omega)]
        refine iff_of_true rfl ?_
        rw [hys.2] at h1
        exact Or.inr (Or.inr (Or.inl h1))

/-- The invalid inputs as the claim enumerates them: wrong type, empty data,
a multi-column y DataFrame, a value that does not convert to float, a coerced
y without exactly one column, or unequal row counts of the coerced frames. -/
def invalidInput (x y : Inp) : Prop :=
  x.isLSD = false ∨ y.isLSD = false ∨ x.pyLen = 0 ∨ y.pyLen = 0 ∨
  (∃ df, y = .frame df ∧ 1 < df.nCols) ∨
  (∃ v ∈ x.cells, v.toFloat? = none) ∨ (∃ v ∈ y.cells, v.toFloat? = none) ∨
  (clean_y_data y).nCols ≠ 1 ∨
  (clean_x_data x).nRows ≠ (clean_y_data y).nRows

/-- Claim C2: the validation stage terminates the program exactly on the
enumerated invalid inputs; on every other input it passes the coerced frames
on (and no branch of this stage raises to the caller). -/
theorem claim_C2_invalid_exactly (x y : Inp) :
    isErr (linregPrep x y) = true ↔ invalidInput x y := by
  rw [← not_iff_not, Bool.not_eq_true]
  unfold linregPrep
  constructor
  · intro h
    cases hv : validate_data x y with
    | some m => rw [hv] at h; cases h
    | none =>
      rw [hv] at h
      obtain ⟨hx, hy, hlx, hly, hdf⟩ := (validate_none_iff x y).mp hv
      have hnd : ¬ (clean_x_data x).astype? = none ∧ ¬ (clean_y_data y).astype? = none ∧
          (clean_y_data y).nCols = 1 ∧
          (clean_x_data x).nRows = (clean_y_data y).nRows := by
        by_contra hcon
        have hd : isErr (final_check (clean_x_data x) (clean_y_data y)) = true := by
          rw [final_check_err]
          by_cases c1 : (clean_x_data x).astype? = none
          · exact Or.inl c1
          · by_cases c2 : (clean_y_data y).astype? = none
            · exact Or.inr (Or.inl c2)
            · by_cases c3 : (clean_y_data y).nCols = 1
              · by_cases c4 : (clean_x_data x).nRows = (clean_y_data y).nRows
                · exact absurd ⟨c1, c2, c3, c4⟩ hcon
                · exact Or.inr (Or.inr (Or.inr c4))
              · exact Or.inr (Or.inr (Or.inl c3))
        rw [hd] at h; cases h
      obtain ⟨hc1, hc2, hc3, hc4⟩ := hnd
      unfold invalidInput
      push_neg
      refine ⟨by simp [hx], by simp [hy], hlx, hly, ?_, ?_, ?_, hc3, hc4⟩
      · rintro df rfl
        have := hdf df rfl
        omega
      · intro v hv2
        rw [Option.ne_none_iff_isSome]
        by_contra hb
        refine hc1 ((astype?_eq_none _).mpr ((cleanx_bad x).mpr ⟨v, hv2, ?_⟩))
        cases hvv : v.toFloat? with
        | none => rfl
        | some w => rw [hvv] at hb; exact absurd rfl hb
      · intro v hv2
        rw [Option.ne_none_iff_isSome]
        by_contra hb
        refine hc2 ((astype?_eq_none _).mpr ((cleany_bad y).mpr ⟨v, hv2, ?_⟩))
        cases hvv : v.toFloat? with
        | none => rfl
        | some w => rw [hvv] at hb; exact absurd rfl hb
  · intro hni
    unfold invalidInput at hni
    push_neg at hni
    obtain ⟨h1, h2, h3, h4, h5, h6, h7, h8, h9⟩ := hni
    have hv : validate_data x y = none := by
      refine (validate_none_iff x y).mpr ⟨?_, ?_, h3, h4, ?_⟩
      · cases hb : x.isLSD with
        | false => exact absurd hb h1
        | true => rfl
      · cases hb : y.isLSD with
        | false => exact absurd hb h2
        | true => rfl
      · intro df hdf
        have := h5 df hdf
        omega
    rw [hv]
    cases hfc : isErr (final_check (clean_x_data x) (clean_y_data y)) with
    | false => rfl
    | true =>
      exfalso
      rcases (final_check_err _ _).mp hfc with hc | hc | hc | hc
      · obtain ⟨v, hv2, hb⟩ := (cleanx_bad x).mp ((astype?_eq_none _).mp hc)
        have := h6 v hv2
        exact this hb
      · obtain ⟨v, hv2, hb⟩ := (cleany_bad y).mp ((astype?_eq_none _).mp hc)
        have := h7 v hv2
        exact this hb
      · exact hc h8
      · exact hc h9

lemma toFloat?_isFloat {v w : Val} (h : v.toFloat? = some w) : w.isFloat = true := by
  cases v with
  | num q => cases h; rfl
  | nan => cases h; rfl
  | strNum q => cases h; rfl
  | strBad s => cases h

lemma colConv?_some_float {l l2 : List Val} (h : colConv? l = some l2) :
    ∀ v ∈ l2, v.isFloat = true := by
  induction l generalizing l2 with
  | nil => cases h; intro v hv; cases hv
  | cons a t ih =>
    unfold colConv? at h
    cases ha : a.toFloat? with
    | none => rw [ha] at h; cases h
    | some w =>
      rw [ha] at h
      cases ht : colConv? t with
      | none => rw [ht] at h; cases h
      | some t2 =>
        rw [ht] at h
        cases h
        intro v hv
        rcases List.mem_cons.mp hv with h0 | h0
        · rw [h0]; exact toFloat?_isFloat ha
        · exact ih ht v h0

lemma colsConv?_fst {cs cs2 : List (Label × List Val)} (h : colsConv? cs = some cs2) :
    cs2.map Prod.fst = cs.map Prod.fst := by
  induction cs generalizing cs2 with
  | nil => cases h; rfl
  | cons c t ih =>
    unfold colsConv? at h
    cases hc : colConv? c.2 with
    | none => rw [hc] at h; cases h
    | some v =>
      rw [hc] at h
      cases ht : colsConv? t with
      | none => rw [ht] at h; cases h
      | some t2 => rw [ht] at h; cases h; simp [ih ht]

lemma colsConv?_float {cs cs2 : List (Label × List Val)} (h : colsConv? cs = some cs2) :
    ∀ v ∈ (cs2.map Prod.snd).flatten, v.isFloat = true := by
  induction cs generalizing cs2 with
  | nil => cases h; intro v hv; cases hv
  | cons c t ih =>
    unfold colsConv? at h
    cases hc : colConv? c.2 with
    | none => rw [hc] at h; cases h
    | some v0 =>
      rw [hc] at h
      cases ht : colsConv? t with
      | none => rw [ht] at h; cases h
      | some t2 =>
        rw [ht] at h
        cases h
        intro v hv
        simp only [List.map_cons, List.flatten_cons, List.mem_append] at hv
        rcases hv with h0 | h0
        · exact colConv?_some_float hc v h0
        · exact ih ht v h0

lemma astype?_some_float {df d2 : DataFrame} (h : df.astype? = some d2) :
    ∀ v ∈ d2.vals, v.isFloat = true := by
  unfold DataFrame.astype? at h
  cases hc : colsConv? df.cols with
  | none => rw [hc] at h; cases h
  | some cs => rw [hc] at h; cases h; exact colsConv?_float hc

lemma astype?_some_names {df d2 : DataFrame} (h : df.astype? = some d2) :
    d2.colNames = df.colNames := by
  unfold DataFrame.astype? at h
  cases hc : colsConv? df.cols with
  | none => rw [hc] at h; cases h
  | some cs => rw [hc] at h; cases h; exact colsConv?_fst hc

lemma idx_rangeIdx_of (n : Nat) {df : DataFrame} (h : df.idx = rangeIdx n) :
    df.idx = rangeIdx df.nRows := by
  unfold DataFrame.nRows
  rw [h, rangeIdx_length]

lemma dfOfPyList_idx (l : PyList) :
    (dfOfPyList l).idx = rangeIdx (dfOfPyList l).idx.length := by
  cases l with
  | flat v =>
    show rangeIdx v.length = rangeIdx (rangeIdx v.length).length
    rw [rangeIdx_length]
  | nested rows =>
    show rangeIdx rows.length = rangeIdx (rangeIdx rows.length).length
    rw [rangeIdx_length]

lemma cleanx_idx (x : Inp) : (clean_x_data x).idx = rangeIdx (clean_x_data x).nRows := by
  cases x with
  | frame df => exact idx_rangeIdx_of df.idx.length rfl
  | series s => exact idx_rangeIdx_of (dfOfSeries s).idx.length rfl
  | other => exact idx_rangeIdx_of 0 rfl
  | pylist l =>
    refine idx_rangeIdx_of (dfOfPyList l).idx.length ?_
    rw [show clean_x_data (.pylist l) = renameXLoop (dfOfPyList l) from rfl, renameXLoop_idx]
    exact dfOfPyList_idx l

lemma cleany_idx (y : Inp) : (clean_y_data y).idx = rangeIdx (clean_y_data y).nRows := by
  cases y with
  | frame df => exact idx_rangeIdx_of df.idx.length rfl
  | series s => exact idx_rangeIdx_of (dfOfSeries s).idx.length rfl
  | other => exact idx_rangeIdx_of 0 rfl
  | pylist l =>
    refine idx_rangeIdx_of (dfOfPyList l).idx.length ?_
    rw [show clean_y_data (.pylist l) = (dfOfPyList l).renameCol (.i 0) (.s "y") from rfl,
      renameCol_idx]
    exact dfOfPyList_idx l

/-- The renaming a single rename step performs on one label. -/
def applyRen (i : Nat) (c : Label) : Label :=
  if c = .i i then .s ("x_variable" ++ toString (i + 1)) else c

lemma renameCol_names (df : DataFrame) (o n : Label) :
    (df.renameCol o n).colNames = df.colNames.map (fun c => if c = o then n else c) := by
  show (df.cols.map _).map Prod.fst = (df.cols.map Prod.fst).map _
  rw [List.map_map, List.map_map]
  refine List.map_congr_left (fun c _ => ?_)
  by_cases h : c.1 = o <;> simp [h]

lemma renameXLoop_names_fold (l : List Nat) (df : DataFrame) :
    (l.foldl (fun d i => d.renameCol (.i i) (.s ("x_variable" ++ toString (i + 1)))) df).colNames
      = l.foldl (fun ns i => ns.map (applyRen i)) df.colNames := by
  induction l generalizing df with
  | nil => rfl
  | cons a t ih =>
    rw [List.foldl_cons, List.foldl_cons, ih, renameCol_names]
    rfl

lemma foldl_map_comp {α : Type} (l : List Nat) (g : Nat → α → α) (ns : List α) :
    l.foldl (fun ns2 i => ns2.map (g i)) ns = ns.map (fun c => l.foldl (fun c2 i => g i c2) c) := by
  induction l generalizing ns with
  | nil => simp
  | cons a t ih =>
    rw [List.foldl_cons, ih, List.map_map]
    rfl

lemma foldl_applyRen_keep (l : List Nat) (c : Label) (h : ∀ i ∈ l, applyRen i c = c) :
    l.foldl (fun c2 i => applyRen i c2) c = c := by
  induction l with
  | nil => rfl
  | cons a t ih =>
    rw [List.foldl_cons, h a (by simp)]
    exact ih (fun i hi => h i (by simp [hi]))

lemma foldl_applyRen_range (w j : Nat) (hj : j < w) :
    (List.range w).foldl (fun c2 i => applyRen i c2) (.i j)
      = .s ("x_variable" ++ toString (j + 1)) := by
  induction w with
  | zero => omega
  | succ w ih =>
    rw [List.range_succ, List.foldl_append]
    simp only [List.foldl_cons, List.foldl_nil]
    by_cases hjw : j < w
    · rw [ih hjw]
      unfold applyRen
      rw [if_neg (by simp)]
    · have hjw2 : j = w := by omega
      subst hjw2
      have hkeep : ∀ i ∈ List.range j, applyRen i (Label.i j) = Label.i j := by
        intro i hi
        have hij : i < j := List.mem_range.mp hi
        unfold applyRen
        rw [if_neg ?_]
        intro hcon
        injection hcon with hji
        omega
      rw [foldl_applyRen_keep _ _ hkeep]
      unfold applyRen
      rw [if_pos rfl]

lemma renameXLoop_names (df : DataFrame) (w : Nat)
    (hn : df.colNames = (List.range w).map Label.i) (hw : df.nCols = w) :
    (renameXLoop df).colNames
      = (List.range w).map (fun i => Label.s ("x_variable" ++ toString (i + 1))) := by
  unfold renameXLoop
  rw [show df.nCols = w from hw, renameXLoop_names_fold, hn, foldl_map_comp, List.map_map]
  refine List.map_congr_left (fun j hj => ?_)
  exact foldl_applyRen_range w j (List.mem_range.mp hj)

lemma dfOfPyList_names (l : PyList) :
    (dfOfPyList l).colNames = (List.range (dfOfPyList l).nCols).map Label.i := by
  cases l with
  | flat v => rfl
  | nested rows =>
    show ((List.range (maxRowLen rows)).map
        (fun j => (Label.i j, rows.map (fun r => (r.get? j).getD Val.nan)))).map Prod.fst
      = (List.range (((List.range (maxRowLen rows)).map
          (fun j => (Label.i j, rows.map (fun r => (r.get? j).getD Val.nan)))).length)).map
        Label.i
    rw [List.map_map, List.length_map, List.length_range]
    rfl

lemma prep_ok_parts {x y : Inp} {xf yf : DataFrame} (h : linregPrep x y = .ok (xf, yf)) :
    validate_data x y = none ∧ (clean_x_data x).astype? = some xf ∧
      (clean_y_data y).astype? = some yf ∧ yf.nCols = 1 ∧ xf.nRows = yf.nRows := by
  unfold linregPrep at h
  cases hv : validate_data x y with
  | some m => rw [hv] at h; cases h
  | none =>
    rw [hv] at h
    unfold final_check at h
    cases hx : (clean_x_data x).astype? with
    | none => rw [hx] at h; cases h
    | some x1 =>
      rw [hx] at h
      cases hy : (clean_y_data y).astype? with
      | none => rw [hy] at h; cases h
      | some y1 =>
        rw [hy] at h
        dsimp only at h
        by_cases h1 : y1.nCols ≠ 1
        · rw [if_pos h1] at h; cases h
        · rw [if_neg h1] at h
          by_cases h2 : x1.nRows ≠ y1.nRows
          · rw [if_pos h2] at h; cases h
          · rw [if_neg h2] at h
            cases h
            push_neg at h1 h2
            exact ⟨rfl, rfl, rfl, h1, h2⟩

/-- Claim C3: when the pipeline accepts x and y, model fitting starts from
two DataFrames of float values with a fresh RangeIndex, y has exactly one
column, row counts agree, a list x yields columns x_variable1, x_variable2,
..., and a list y yields the single column y. -/
theorem claim_C3_coercion (x y : Inp) (xf yf : DataFrame)
    (h : linregPrep x y = .ok (xf, yf)) :
    (∀ v ∈ xf.vals, v.isFloat = true) ∧ (∀ v ∈ yf.vals, v.isFloat = true) ∧
    xf.idx = rangeIdx xf.nRows ∧ yf.idx = rangeIdx yf.nRows ∧
    yf.nCols = 1 ∧ xf.nRows = yf.nRows ∧
    (∀ l, x = .pylist l → xf.colNames =
      (List.range xf.nCols).map (fun i => Label.s ("x_variable" ++ toString (i + 1)))) ∧
    (∀ l, y = .pylist l → yf.colNames = [Label.s "y"]) := by
  obtain ⟨hv, hx, hy, h1, h2⟩ := prep_ok_parts h
  have hxs := astype?_some_shape _ _ hx
  have hys := astype?_some_shape _ _ hy
  refine ⟨astype?_some_float hx, astype?_some_float hy, ?_, ?_, h1, h2, ?_, ?_⟩
  · rw [hxs.1, cleanx_idx x]
    show _ = rangeIdx xf.idx.length
    rw [hxs.1]
    rfl
  · rw [hys.1, cleany_idx y]
    show _ = rangeIdx yf.idx.length
    rw [hys.1]
    rfl
  · rintro l rfl
    rw [astype?_some_names hx, show xf.nCols = (clean_x_data (.pylist l)).nCols from hxs.2,
      show clean_x_data (.pylist l) = renameXLoop (dfOfPyList l) from rfl]
    have hlen : (renameXLoop (dfOfPyList l)).nCols = (dfOfPyList l).nCols := by
      show (renameXLoop (dfOfPyList l)).cols.length = _
      have := congrArg List.length (renameXLoop_snds (dfOfPyList l))
      rw [List.length_map, List.length_map] at this
      exact this
    rw [hlen]
    exact renameXLoop_names _ _ (dfOfPyList_names l) rfl
  · rintro l rfl
    rw [astype?_some_names hy]
    cases l with
    | flat v => rfl
    | nested rows =>
      have hw : maxRowLen rows = 1 := by
        have hcy : (clean_y_data (.pylist (.nested rows))).nCols = 1 := by
          rw [← hys.2]; exact h1
        have : (clean_y_data (.pylist (.nested rows))).nCols
            = (dfOfNested rows).nCols := by
          show ((dfOfNested rows).renameCol _ _).cols.length = _
          exact renameCol_length _ _ _
        rw [this] at hcy
        show maxRowLen rows = 1
        have : (dfOfNested rows).nCols = maxRowLen rows := by
          show ((List.range (maxRowLen rows)).map _).length = _
          rw [List.length_map, List.length_range]
        omega
      have hnames : (dfOfNested rows).colNames = [Label.i 0] := by
        show ((List.range (maxRowLen rows)).map
          (fun j => (Label.i j, rows.map (fun r => (r.get? j).getD Val.nan)))).map Prod.fst = _
        rw [hw, List.map_map]
        rfl
      show ((dfOfNested rows).renameCol (.i 0) (.s "y")).colNames = [Label.s "y"]
      rw [renameCol_names, hnames]
      rfl

/-- Witness for claim C3 at a concrete accepted input: x a flat python list,
y a pandas Series. -/
theorem claim_C3_coercion_witness :
    linregPrep (.pylist (.flat [.num 1, .num 2])) (.series ⟨.s "out", [.num 3, .num 4]⟩)
      = .ok (⟨[0, 1], [(.s "x_variable1", [.num 1, .num 2])]⟩,
             ⟨[0, 1], [(.s "out", [.num 3, .num 4])]⟩) ∧
    (⟨[0, 1], [(.s "x_variable1", [.num 1, .num 2])]⟩ : DataFrame).idx
        = rangeIdx (DataFrame.nRows ⟨[0, 1], [(.s "x_variable1", [.num 1, .num 2])]⟩) ∧
    (DataFrame.nCols ⟨[0, 1], [(.s "out", [.num 3, .num 4])]⟩) = 1 :=
  ⟨by rfl,
   (claim_C3_coercion (.pylist (.flat [.num 1, .num 2]))
     (.series ⟨.s "out", [.num 3, .num 4]⟩)
     ⟨[0, 1], [(.s "x_variable1", [.num 1, .num 2])]⟩
     ⟨[0, 1], [(.s "out", [.num 3, .num 4])]⟩ (by rfl)).2.2.1,
   (claim_C3_coercion (.pylist (.flat [.num 1, .num 2]))
     (.series ⟨.s "out", [.num 3, .num 4]⟩)
     ⟨[0, 1], [(.s "x_variable1", [.num 1, .num 2])]⟩
     ⟨[0, 1], [(.s "out", [.num 3, .num 4])]⟩ (by rfl)).2.2.2.2.1⟩

lemma cleany_nested_ncols (rows : List (List Val)) :
    (clean_y_data (.pylist (.nested rows))).nCols = maxRowLen rows := by
  show ((dfOfNested rows).renameCol (.i 0) (.s "y")).cols.length = _
  rw [renameCol_length]
  show ((List.range (maxRowLen rows)).map
    (fun j => (Label.i j, rows.map (fun r => (r.get? j).getD Val.nan)))).length = _
  rw [List.length_map, List.length_range]

lemma two_le_maxRowLen {rows : List (List Val)} (h : ∃ r ∈ rows, 1 < r.length) :
    1 < maxRowLen rows := by
  obtain ⟨r, hr, hlen⟩ := h
  exact lt_of_lt_of_le hlen (length_le_maxRowLen rows r hr)

/-- Claim C10: model fitting is never reached with a multi-column response.
A y DataFrame with more than one column is stopped inside validate_data; a
nested python list y with a row of more than one element passes no further
than final_check: the whole pipeline errors, and whenever the earlier stages
(validation and both astype conversions) go through, the error is exactly the
one-column shape check. -/
theorem claim_C10_multicol_y_never_fit (x : Inp) (df : DataFrame) (rows : List (List Val)) :
    (1 < df.nCols → (validate_data x (.frame df)).isSome = true) ∧
    ((∃ r ∈ rows, 1 < r.length) →
      isErr (linregPrep x (.pylist (.nested rows))) = true ∧
      (validate_data x (.pylist (.nested rows)) = none →
        ∀ xa, (clean_x_data x).astype? = some xa →
        ∀ ya, (clean_y_data (.pylist (.nested rows))).astype? = some ya →
          final_check (clean_x_data x) (clean_y_data (.pylist (.nested rows)))
            = .error "y can only have one column.")) := by
  constructor
  · intro hc
    cases heq : validate_data x (.frame df) with
    | some m => rfl
    | none =>
      exfalso
      have := ((validate_none_iff x (.frame df)).mp heq).2.2.2.2 df rfl
      omega
  · intro hrow
    have hw : 1 < maxRowLen rows := two_le_maxRowLen hrow
    have hcols : (clean_y_data (.pylist (.nested rows))).nCols ≠ 1 := by
      rw [cleany_nested_ncols]; omega
    constructor
    · unfold linregPrep
      cases hv : validate_data x (.pylist (.nested rows)) with
      | some m => rfl
      | none =>
        rw [final_check_err]
        exact Or.inr (Or.inr (Or.inl hcols))
    · intro _ xa hxa ya hya
      unfold final_check
      rw [hxa, hya]
      dsimp only
      rw [if_pos ?_]
      rw [← (astype?_some_shape _ _ hya).2] at hcols
      exact hcols

/-- Witness for claim C10 at concrete inputs: a two-column y DataFrame and a
nested y list with two-element rows, with x a valid Series. -/
theorem claim_C10_multicol_y_never_fit_witness :
    (validate_data (.series ⟨.s "a", [.num 1, .num 2]⟩)
        (.frame ⟨[0], [(.s "p", [.num 1]), (.s "q", [.num 2])]⟩)).isSome = true ∧
    isErr (linregPrep (.series ⟨.s "a", [.num 1, .num 2]⟩)
        (.pylist (.nested [[.num 1, .num 2], [.num 3, .num 4]]))) = true ∧
    final_check (clean_x_data (.series ⟨.s "a", [.num 1, .num 2]⟩))
        (clean_y_data (.pylist (.nested [[.num 1, .num 2], [.num 3, .num 4]])))
      = .error "y can only have one column." :=
  ⟨(claim_C10_multicol_y_never_fit (.series ⟨.s "a", [.num 1, .num 2]⟩)
      ⟨[0], [(.s "p", [.num 1]), (.s "q", [.num 2])]⟩
      [[.num 1, .num 2], [.num 3, .num 4]]).1 (by decide),
   ((claim_C10_multicol_y_never_fit (.series ⟨.s "a", [.num 1, .num 2]⟩)
      ⟨[0], [(.s "p", [.num 1]), (.s "q", [.num 2])]⟩
      [[.num 1, .num 2], [.num 3, .num 4]]).2 (by decide)).1,
   ((claim_C10_multicol_y_never_fit (.series ⟨.s "a", [.num 1, .num 2]⟩)
      ⟨[0], [(.s "p", [.num 1]), (.s "q", [.num 2])]⟩
      [[.num 1, .num 2], [.num 3, .num 4]]).2 (by decide)).2 (by rfl)
     ⟨[0, 1], [(.s "a", [.num 1, .num 2])]⟩ (by rfl)
     ⟨[0, 1], [(.s "y", [.num 1, .num 3]), (.i 1, [.num 2, .num 4])]⟩ (by rfl)⟩

lemma rename_columns_snds (X : QFrame) (b : Bool) :
    (rename_columns X b).cols.map Prod.snd = X.cols.map Prod.snd := by
  show (X.cols.map _).map Prod.snd = _
  rw [List.map_map]
  rfl

lemma map_snd_map_eq {α : Type} {A B : List (String × List ℚ)}
    (h : A.map Prod.snd = B.map Prod.snd) (F : List ℚ → α) :
    A.map (fun c => F c.2) = B.map (fun c => F c.2) := by
  have h2 := congrArg (List.map F) h
  rw [List.map_map, List.map_map] at h2
  exact h2

lemma keyed_map_eq {α : Type} (cols : List (String × List ℚ))
    (h : (cols.map Prod.fst).Nodup) (G : List ℚ → ℚ → α) (m : List ℚ → ℚ) :
    (cols.map Prod.fst).map (fun cn =>
        G (QFrame.getCol ⟨cols⟩ cn)
          ((cols.map (fun c => m c.2)).getD (QFrame.getLoc ⟨cols⟩ cn) 0))
      = cols.map (fun col => G col.2 (m col.2)) := by
  induction cols with
  | nil => rfl
  | cons c t ih =>
    rw [List.map_cons] at h
    have hnm : c.1 ∉ t.map Prod.fst := (List.nodup_cons.mp h).1
    have hnd : (t.map Prod.fst).Nodup := (List.nodup_cons.mp h).2
    rw [List.map_cons, List.map_cons, List.map_cons]
    congr 1
    · have hcol : QFrame.getCol ⟨c :: t⟩ c.1 = c.2 := by
        unfold QFrame.getCol
        rw [List.find?_cons_of_pos _ (by simp)]
        rfl
      have hloc : QFrame.getLoc ⟨c :: t⟩ c.1 = 0 := by
        unfold QFrame.getLoc
        rw [List.map_cons, List.findIdx_cons]
        simp
      rw [hcol, hloc]
      rfl
    · rw [← ih hnd]
      refine List.map_congr_left (fun cn hcn => ?_)
      have hne : ¬ c.1 = cn := fun hcon => hnm (hcon ▸ hcn)
      have hcol : QFrame.getCol ⟨c :: t⟩ cn = QFrame.getCol ⟨t⟩ cn := by
        unfold QFrame.getCol
        rw [List.find?_cons_of_neg _ (by simpa using hne)]
      have hloc : QFrame.getLoc ⟨c :: t⟩ cn = QFrame.getLoc ⟨t⟩ cn + 1 := by
        unfold QFrame.getLoc
        rw [List.map_cons, List.findIdx_cons]
        simp [hne]
      rw [hcol, hloc]
      rfl

/-- Claim C4: the by-hand intermediate statistics of multiple_regr equal
their textbook definitions over the coerced X columns (no constant column is
present in them) and the y column, one list entry per X column.  The
hypothesis asks that the generically renamed column names be distinct: with
a duplicated name the pandas source would not return Series from X(col) and
multiple_regr would not return. -/
theorem claim_C4_textbook_stats (e : Engine) (X y : QFrame) (c : Bool)
    (hn : ((rename_columns X c).cols.map Prod.fst).Nodup) :
    (multipleRegr e X y c).x_bar = X.cols.map (fun col => listMean col.2) ∧
    (multipleRegr e X y c).y_bar = listMean (firstColVals y) ∧
    (multipleRegr e X y c).sumx = X.cols.map (fun col => col.2.sum) ∧
    (multipleRegr e X y c).sumy = (firstColVals y).sum ∧
    (multipleRegr e X y c).sumx2 = X.cols.map (fun col => (col.2.map (fun v => v ^ 2)).sum) ∧
    (multipleRegr e X y c).sumy2 = ((firstColVals y).map (fun v => v ^ 2)).sum ∧
    (multipleRegr e X y c).sumxy = X.cols.map (fun col =>
      ((col.2.zip (firstColVals y)).map (fun p => p.1 * p.2)).sum) ∧
    (multipleRegr e X y c).SXX = X.cols.map (fun col =>
      (col.2.map (fun v => (v - listMean col.2) ^ 2)).sum) ∧
    (multipleRegr e X y c).SYY
      = ((firstColVals y).map (fun v => (v - listMean (firstColVals y)) ^ 2)).sum ∧
    (multipleRegr e X y c).SXY = X.cols.map (fun col =>
      ((col.2.zip (firstColVals y)).map (fun p =>
        (p.1 - listMean col.2) * (p.2 - listMean (firstColVals y)))).sum) ∧
    (multipleRegr e X y c).x_bar.length = X.cols.length ∧
    (multipleRegr e X y c).sumx.length = X.cols.length ∧
    (multipleRegr e X y c).sumx2.length = X.cols.length ∧
    (multipleRegr e X y c).sumxy.length = X.cols.length ∧
    (multipleRegr e X y c).SXX.length = X.cols.length ∧
    (multipleRegr e X y c).SXY.length = X.cols.length := by
  have hsnd := rename_columns_snds X c
  have hxbar : (multipleRegr e X y c).x_bar = X.cols.map (fun col => listMean col.2) :=
    map_snd_map_eq hsnd listMean
  have hsumx : (multipleRegr e X y c).sumx = X.cols.map (fun col => col.2.sum) :=
    map_snd_map_eq hsnd List.sum
  have hsumx2 : (multipleRegr e X y c).sumx2
      = X.cols.map (fun col => (col.2.map (fun v => v ^ 2)).sum) := by
    refine Eq.trans (keyed_map_eq (rename_columns X c).cols hn
      (fun vals _ => (vals.map (fun v => v ^ 2)).sum) listMean) ?_
    exact map_snd_map_eq hsnd (fun vals => (vals.map (fun v => v ^ 2)).sum)
  have hsumxy : (multipleRegr e X y c).sumxy = X.cols.map (fun col =>
      ((col.2.zip (firstColVals y)).map (fun p => p.1 * p.2)).sum) := by
    refine Eq.trans (keyed_map_eq (rename_columns X c).cols hn
      (fun vals _ => ((vals.zip (firstColVals y)).map
        (fun p : ℚ × ℚ => p.1 * p.2)).sum) listMean) ?_
    exact map_snd_map_eq hsnd
      (fun vals => ((vals.zip (firstColVals y)).map (fun p : ℚ × ℚ => p.1 * p.2)).sum)
  have hsxx : (multipleRegr e X y c).SXX = X.cols.map (fun col =>
      (col.2.map (fun v => (v - listMean col.2) ^ 2)).sum) := by
    refine Eq.trans (keyed_map_eq (rename_columns X c).cols hn
      (fun vals xb => (vals.map (fun v => (v - xb) ^ 2)).sum) listMean) ?_
    exact map_snd_map_eq hsnd (fun vals => (vals.map (fun v => (v - listMean vals) ^ 2)).sum)
  have hsxy : (multipleRegr e X y c).SXY = X.cols.map (fun col =>
      ((col.2.zip (firstColVals y)).map (fun p =>
        (p.1 - listMean col.2) * (p.2 - listMean (firstColVals y)))).sum) := by
    refine Eq.trans (keyed_map_eq (rename_columns X c).cols hn
      (fun vals xb => ((vals.zip (firstColVals y)).map (fun p : ℚ × ℚ =>
        (p.1 - xb) * (p.2 - listMean (firstColVals y)))).sum) listMean) ?_
    exact map_snd_map_eq hsnd (fun vals => ((vals.zip (firstColVals y)).map (fun p : ℚ × ℚ =>
      (p.1 - listMean vals) * (p.2 - listMean (firstColVals y)))).sum)
  refine ⟨hxbar, rfl, hsumx, rfl, hsumx2, rfl, hsumxy, hsxx, rfl, hsxy, ?_, ?_, ?_, ?_, ?_, ?_⟩
  · rw [hxbar, List.length_map]
  · rw [hsumx, List.length_map]
  · rw [hsumx2, List.length_map]
  · rw [hsumxy, List.length_map]
  · rw [hsxx, List.length_map]
  · rw [hsxy, List.length_map]

/-- Witness for claim C4 at a concrete input with two X columns under
const = true: the renamed names are distinct and every textbook equality
holds numerically. -/
theorem claim_C4_textbook_stats_witness :
    ((rename_columns ⟨[("a", [1, 2]), ("b", [3, 5])]⟩ true).cols.map Prod.fst).Nodup ∧
    (multipleRegr zeroEngine ⟨[("a", [1, 2]), ("b", [3, 5])]⟩ ⟨[("yy", [2, 4])]⟩ true).x_bar
      = [3 / 2, 4] ∧
    (multipleRegr zeroEngine ⟨[("a", [1, 2]), ("b", [3, 5])]⟩ ⟨[("yy", [2, 4])]⟩ true).SXX
      = [1 / 2, 2] :=
  ⟨by decide,
   by
    rw [(claim_C4_textbook_stats zeroEngine ⟨[("a", [1, 2]), ("b", [3, 5])]⟩
      ⟨[("yy", [2, 4])]⟩ true (by decide)).1]
    norm_num [listMean],
   by
    rw [(claim_C4_textbook_stats zeroEngine ⟨[("a", [1, 2]), ("b", [3, 5])]⟩
      ⟨[("yy", [2, 4])]⟩ true (by decide)).2.2.2.2.2.2.2.1]
    norm_num [listMean]⟩

lemma cons_getLast?_isSome {α : Type} (l : List α) (a : α) :
    ∃ b, (a :: l).getLast? = some b := by
  induction l generalizing a with
  | nil => exact ⟨a, rfl⟩
  | cons r t ih =>
    rw [List.getLast?_cons_cons]
    exact ih r

/-- The summary frame the loop of pred has in hand after processing rest,
having entered with acc. -/
def lastFrame (mr : RegressionResults) (xvars : List String) (alpha : ℚ)
    (acc : PredFrame) (rest : List (List ℚ)) : PredFrame :=
  match rest.getLast? with
  | none => acc
  | some last => mr.getPrediction (xvars.zip last) alpha

lemma predLoop_spec (mr : RegressionResults) (xvars : List String) (alpha : ℚ)
    (rest : List (List ℚ)) (acc : PredFrame) :
    ((∃ v ∈ rest, v.length ≠ xvars.length) → predLoop mr xvars alpha rest acc = .noneRet) ∧
    ((∀ v ∈ rest, v.length = xvars.length) →
      predLoop mr xvars alpha rest acc =
        .interval (lastFrame mr xvars alpha acc rest).lower_pi
          (lastFrame mr xvars alpha acc rest).upper_pi) := by
  induction rest generalizing acc with
  | nil =>
    refine ⟨?_, fun _ => rfl⟩
    rintro ⟨v, hv, -⟩
    cases hv
  | cons v rest ih =>
    constructor
    · rintro ⟨u, hu, hul⟩
      unfold predLoop
      by_cases hv : xvars.length ≠ v.length
      · rw [if_pos hv]
      · rw [if_neg hv]
        push_neg at hv
        refine ((ih _).1 ⟨u, ?_, hul⟩)
        rcases List.mem_cons.mp hu with h0 | h0
        · subst h0; omega
        · exact h0
    · intro hall
      have hv : ¬ xvars.length ≠ v.length := by
        have := hall v (List.mem_cons_self v rest)
        omega
      unfold predLoop
      rw [if_neg hv, (ih _).2 (fun u hu => hall u (List.mem_cons_of_mem _ hu))]
      unfold lastFrame
      cases rest with
      | nil => rfl
      | cons r t =>
        obtain ⟨b, hb⟩ := cons_getLast?_isSome t r
        rw [List.getLast?_cons_cons, hb]

lemma lastFrame_getLast (mr : RegressionResults) (xvars : List String) (alpha : ℚ)
    (v last : List ℚ) (rest : List (List ℚ)) (hl : (v :: rest).getLast? = some last) :
    lastFrame mr xvars alpha (mr.getPrediction (xvars.zip v) alpha) rest
      = mr.getPrediction (xvars.zip last) alpha := by
  cases rest with
  | nil =>
    have : v = last := by
      have : some v = some last := hl
      injection this
    subst this
    rfl
  | cons r t =>
    rw [List.getLast?_cons_cons] at hl
    unfold lastFrame
    rw [hl]

/-- Counterexample to claim C6 as stated: submitting an empty list of value
sets makes pred hit X(0) and raise IndexError before the loop, so it neither
prints the mismatch error and returns None nor returns any interval. -/
theorem claim_C6_pred_counterexample :
    ¬ predClaimAt (zeroRR 1) ["x_variable1"] [] 95 := by
  unfold predClaimAt
  rintro ⟨-, h2⟩
  obtain ⟨last, hlast, -⟩ := h2 (fun v hv => absurd hv (List.not_mem_nil v))
  cases hlast

/-- Claim C6 amended: for every regression result and every non-empty
submitted list of X value sets, pred returns None after an error message when
any value set's length differs from the number of model X variables, and
otherwise returns the prediction-interval bounds of the last submitted value
set at the requested confidence level. -/
theorem claim_C6_pred_nonempty (mr : RegressionResults) (xvars : List String)
    (X : List (List ℚ)) (ci : ℚ) (hne : X ≠ []) :
    predClaimAt mr xvars X ci := by
  unfold predClaimAt
  cases X with
  | nil => exact absurd rfl hne
  | cons v rest =>
    constructor
    · rintro ⟨u, hu, hul⟩
      show pred mr xvars (v :: rest) ci = .noneRet
      unfold pred
      dsimp only
      by_cases hv : xvars.length ≠ v.length
      · rw [if_pos hv]
      · rw [if_neg hv]
        push_neg at hv
        refine (predLoop_spec mr xvars _ rest _).1 ⟨u, ?_, hul⟩
        rcases List.mem_cons.mp hu with h0 | h0
        · subst h0; omega
        · exact h0
    · intro hall
      have hv : ¬ xvars.length ≠ v.length := by
        have := hall v (List.mem_cons_self v rest)
        omega
      obtain ⟨last, hlast⟩ := cons_getLast?_isSome rest v
      refine ⟨last, hlast, ?_⟩
      show pred mr xvars (v :: rest) ci = _
      unfold pred
      dsimp only
      rw [if_neg hv,
        (predLoop_spec mr xvars _ rest _).2 (fun u hu => hall u (List.mem_cons_of_mem _ hu)),
        lastFrame_getLast mr xvars _ v last rest hlast]

/-- Witness for the amended claim C6 at a two-variable model and two
submitted value sets of the right length. -/
theorem claim_C6_pred_nonempty_witness :
    ([[(1 : ℚ), 2], [3, 4]] ≠ ([] : List (List ℚ))) ∧
    predClaimAt (zeroRR 1) ["a", "b"] [[1, 2], [3, 4]] 95 :=
  ⟨by decide, claim_C6_pred_nonempty (zeroRR 1) ["a", "b"] [[1, 2], [3, 4]] 95 (by decide)⟩

lemma formulaTerms_const_irrelevant (X : QFrame) :
    formulaTerms X true = formulaTerms X false := by
  unfold formulaTerms addConstCol
  simp

/-- Claim C7, evaluated where it fails: reports.summary always prints one
row per label, but with const = false the create_model formula still carries
the implicit patsy intercept (it is the same formula as with const = true),
so one X variable yields one label against two fitted coefficients. -/
theorem claim_C7_summary_label_mismatch :
    (∀ st : Stats, (summaryRows st).length = (summaryLabels st).length) ∧
    (summaryLabels (multipleRegr zeroEngine ⟨[("x_variable1", [1, 2, 3])]⟩
        ⟨[("y", [2, 4, 6])]⟩ false)).length = 1 ∧
    (multipleRegr zeroEngine ⟨[("x_variable1", [1, 2, 3])]⟩
        ⟨[("y", [2, 4, 6])]⟩ false).coefficients.length = 2 ∧
    mkFormula ⟨[("x_variable1", [1, 2, 3])]⟩ true
      = mkFormula ⟨[("x_variable1", [1, 2, 3])]⟩ false := by
  refine ⟨fun st => ?_, rfl, ?_, rfl⟩
  · show ((summaryLabels st).enum.map _).length = _
    rw [List.length_map, List.enum_length]
  · show (List.replicate (1 + 1) (0 : ℚ)).length = 2
    rw [List.length_replicate]

lemma hGet_append {h : Heap} (d : DataFrame) {r : Nat} (hr : r < h.length) :
    hGet (h ++ [d]) r = hGet h r := by
  unfold hGet
  rw [List.getD_eq_getElem?_getD, List.getD_eq_getElem?_getD, List.getElem?_append,
    if_pos hr]

lemma hGet_append_self (h : Heap) (d : DataFrame) : hGet (h ++ [d]) h.length = d := by
  unfold hGet
  rw [List.getD_eq_getElem?_getD, List.getElem?_concat_length]
  rfl

lemma hGet_set_ne (h : Heap) (i r : Nat) (d : DataFrame) (hir : i ≠ r) :
    hGet (h.set i d) r = hGet h r := by
  unfold hGet
  rw [List.getD_eq_getElem?_getD, List.getD_eq_getElem?_getD, List.getElem?_set_ne hir]

lemma hGet_set_self (h : Heap) (i : Nat) (d : DataFrame) (hi : i < h.length) :
    hGet (h.set i d) i = d := by
  unfold hGet
  rw [List.getD_eq_getElem?_getD, List.getElem?_set_self hi]
  rfl

/-- Claim C8 as stated for interaction, at one input: whenever the call
returns, the returned frame is the original columns plus exactly one appended
product column. -/
def addsOneNewColumn (h : Heap) (r : Nat) (c1 c2 : String) : Prop :=
  ∀ r2, (interactionT h r c1 c2).2 = .ok r2 →
    ∃ prod, hGet (interactionT h r c1 c2).1 r2
      = ⟨(hGet h r).idx, (hGet h r).cols ++ [(.s (c1 ++ "*" ++ c2), prod)]⟩

/-- Counterexample to claim C8 as stated: when the frame already has a column
named c1*c2, the pandas assignment overwrites it on the copy instead of
appending a new column, so the result has the same number of columns as the
original. -/
theorem claim_C8_counterexample :
    ¬ addsOneNewColumn
      [⟨[0], [(.s "a", [.num 2]), (.s "b", [.num 3]), (.s "a*b", [.num 99])]⟩] 0 "a" "b" := by
  intro hcl
  obtain ⟨prod, heq⟩ := hcl 1 (by rfl)
  have hlen := congrArg (fun d => d.cols.length) heq
  dsimp only at hlen
  have h1 : (hGet (interactionT
      [⟨[0], [(.s "a", [.num 2]), (.s "b", [.num 3]), (.s "a*b", [.num 99])]⟩]
      0 "a" "b").1 1).cols.length = 3 := rfl
  have h2 : ((hGet [(⟨[0], [(.s "a", [.num 2]), (.s "b", [.num 3]),
      (.s "a*b", [.num 99])]⟩ : DataFrame)] 0).cols
        ++ [(Label.s ("a" ++ "*" ++ "b"), prod)]).length = 4 := by
    rw [List.length_append]
    rfl
  rw [h1, h2] at hlen
  cases hlen

/-- Claim C8 amended: none of the four transform functions modifies the
caller's frame on any path (success, exit or raise), each success returns a
fresh reference, and interaction and poly return the original columns plus
exactly one new product or power column provided no column of that name
already exists (an existing column of that name is overwritten in the copy
instead). -/
theorem claim_C8_transform_pure (h : Heap) (r : Nat) (c1 c2 column : String) (order : ℤ)
    (enc : List Val → List Val) (encCols : List Val → List (String × List Val))
    (hr : r < h.length) :
    hGet (interactionT h r c1 c2).1 r = hGet h r ∧
    hGet (polyT h r column order).1 r = hGet h r ∧
    hGet (encodeT enc h r column).1 r = hGet h r ∧
    hGet (dummyT encCols h r column).1 r = hGet h r ∧
    (∀ r2, (interactionT h r c1 c2).2 = .ok r2 → r2 ≠ r) ∧
    (∀ r2, (polyT h r column order).2 = .ok r2 → r2 ≠ r) ∧
    (∀ r2, (encodeT enc h r column).2 = .ok r2 → r2 ≠ r) ∧
    (∀ r2, (dummyT encCols h r column).2 = .ok r2 → r2 ≠ r) ∧
    (∀ v, colMul? (getColV (hGet h r) (.s c1)) (getColV (hGet h r) (.s c2)) = some v →
      Label.s (c1 ++ "*" ++ c2) ∉ (hGet h r).cols.map Prod.fst →
      Label.s c1 ∈ (hGet h r).cols.map Prod.fst →
      Label.s c2 ∈ (hGet h r).cols.map Prod.fst →
      (interactionT h r c1 c2).2 = .ok h.length ∧
      hGet (interactionT h r c1 c2).1 h.length
        = ⟨(hGet h r).idx, (hGet h r).cols ++ [(.s (c1 ++ "*" ++ c2), v)]⟩) ∧
    (∀ v, colPow? (getColV (hGet h r) (.s column)) order.toNat = some v →
      2 ≤ order →
      Label.s (column ++ toString order) ∉ (hGet h r).cols.map Prod.fst →
      Label.s column ∈ (hGet h r).cols.map Prod.fst →
      (polyT h r column order).2 = .ok h.length ∧
      hGet (polyT h r column order).1 h.length
        = ⟨(hGet h r).idx, (hGet h r).cols ++ [(.s (column ++ toString order), v)]⟩) := by
  have hne : h.length ≠ r := Nat.ne_of_gt hr
  have hcopy : hGet (h ++ [hGet h r]) r = hGet h r := hGet_append _ hr
  have hcself : hGet (h ++ [hGet h r]) h.length = hGet h r := hGet_append_self h _
  have hlen1 : h.length < (h ++ [hGet h r]).length := by
    rw [List.length_append]
    show h.length < h.length + 1
    omega
  refine ⟨?_, ?_, ?_, ?_, ?_, ?_, ?_, ?_, ?_, ?_⟩
  · unfold interactionT
    simp only [deepcopyH]
    rw [hcself]
    by_cases hmem : Label.s c1 ∉ (hGet h r).cols.map Prod.fst ∨
        Label.s c2 ∉ (hGet h r).cols.map Prod.fst
    · rw [if_pos hmem]
      exact hcopy
    · rw [if_neg hmem]
      cases hmul2 : colMul? (getColV (hGet h r) (.s c1)) (getColV (hGet h r) (.s c2)) with
      | none => exact hcopy
      | some v =>
        dsimp only
        unfold hAssign
        rw [hGet_set_ne _ _ _ _ hne]
        exact hcopy
  · unfold polyT
    simp only [deepcopyH]
    rw [hcself]
    by_cases ho : order < 2
    · rw [if_pos ho]
      exact hcopy
    · rw [if_neg ho]
      by_cases hmem : Label.s column ∉ (hGet h r).cols.map Prod.fst
      · rw [if_pos hmem]
        exact hcopy
      · rw [if_neg hmem]
        cases hpow2 : colPow? (getColV (hGet h r) (.s column)) order.toNat with
        | none => exact hcopy
        | some v =>
          dsimp only
          unfold hAssign
          rw [hGet_set_ne _ _ _ _ hne]
          exact hcopy
  · unfold encodeT
    simp only [deepcopyH]
    rw [hcself]
    by_cases hmem : Label.s column ∉ (hGet h r).cols.map Prod.fst
    · rw [if_pos hmem]
      exact hcopy
    · rw [if_neg hmem]
      by_cases hnu : nuniqueV (getColV (hGet h r) (.s column)) ≠ 2
      · rw [if_pos hnu]
        exact hcopy
      · rw [if_neg hnu]
        dsimp only
        unfold hAssign
        rw [hGet_set_ne _ _ _ _ hne]
        exact hcopy
  · unfold dummyT
    dsimp only
    by_cases hmem : Label.s column ∉ (hGet h r).cols.map Prod.fst
    · rw [if_pos hmem]
    · rw [if_neg hmem]
      by_cases hnu : 4 < nuniqueV (getColV (hGet h r) (.s column))
      · rw [if_pos hnu]
      · rw [if_neg hnu]
        dsimp only
        exact hGet_append _ hr
  · intro r2 hr2
    unfold interactionT at hr2
    simp only [deepcopyH] at hr2
    by_cases hmem : Label.s c1 ∉ (hGet (h ++ [hGet h r]) h.length).cols.map Prod.fst ∨
        Label.s c2 ∉ (hGet (h ++ [hGet h r]) h.length).cols.map Prod.fst
    · rw [if_pos hmem] at hr2
      cases hr2
    · rw [if_neg hmem] at hr2
      cases hmul2 : colMul? (getColV (hGet (h ++ [hGet h r]) h.length) (.s c1))
          (getColV (hGet (h ++ [hGet h r]) h.length) (.s c2)) with
      | none => rw [hmul2] at hr2; cases hr2
      | some v =>
        rw [hmul2] at hr2
        dsimp only at hr2
        injection hr2 with h3
        omega
  · intro r2 hr2
    unfold polyT at hr2
    simp only [deepcopyH] at hr2
    by_cases ho : order < 2
    · rw [if_pos ho] at hr2
      cases hr2
    · rw [if_neg ho] at hr2
      by_cases hmem : Label.s column ∉ (hGet (h ++ [hGet h r]) h.length).cols.map Prod.fst
      · rw [if_pos hmem] at hr2
        cases hr2
      · rw [if_neg hmem] at hr2
        cases hpow2 : colPow? (getColV (hGet (h ++ [hGet h r]) h.length) (.s column))
            order.toNat with
        | none => rw [hpow2] at hr2; cases hr2
        | some v =>
          rw [hpow2] at hr2
          dsimp only at hr2
          injection hr2 with h3
          omega
  · intro r2 hr2
    unfold encodeT at hr2
    simp only [deepcopyH] at hr2
    by_cases hmem : Label.s column ∉ (hGet (h ++ [hGet h r]) h.length).cols.map Prod.fst
    · rw [if_pos hmem] at hr2
      cases hr2
    · rw [if_neg hmem] at hr2
      by_cases hnu : nuniqueV (getColV (hGet (h ++ [hGet h r]) h.length) (.s column)) ≠ 2
      · rw [if_pos hnu] at hr2
        cases hr2
      · rw [if_neg hnu] at hr2
        injection hr2 with h3
        omega
  · intro r2 hr2
    unfold dummyT at hr2
    dsimp only at hr2
    by_cases hmem : Label.s column ∉ (hGet h r).cols.map Prod.fst
    · rw [if_pos hmem] at hr2
      cases hr2
    · rw [if_neg hmem] at hr2
      by_cases hnu : 4 < nuniqueV (getColV (hGet h r) (.s column))
      · rw [if_pos hnu] at hr2
        cases hr2
      · rw [if_neg hnu] at hr2
        dsimp only at hr2
        injection hr2 with h3
        omega
  · intro v hmul hfresh hc1 hc2
    unfold interactionT
    simp only [deepcopyH]
    rw [hcself]
    rw [if_neg (by push_neg; exact ⟨hc1, hc2⟩)]
    rw [hmul]
    dsimp only
    refine ⟨rfl, ?_⟩
    unfold hAssign
    rw [hcself, hGet_set_self _ _ _ hlen1]
    unfold DataFrame.assignCol
    rw [if_neg hfresh]
  · intro v hpow hord hfresh hcol
    unfold polyT
    simp only [deepcopyH]
    rw [hcself]
    rw [if_neg (by omega), if_neg (fun hc => hc hcol)]
    rw [hpow]
    dsimp only
    refine ⟨rfl, ?_⟩
    unfold hAssign
    rw [hcself, hGet_set_self _ _ _ hlen1]
    unfold DataFrame.assignCol
    rw [if_neg hfresh]

/-- Witness for the amended claim C8 on a concrete heap: the original frame
is untouched and interaction appends exactly the fresh product column. -/
theorem claim_C8_transform_pure_witness :
    hGet (interactionT [⟨[0, 1], [(.s "a", [.num 2, .num 3]), (.s "b", [.num 4, .num 5])]⟩]
        0 "a" "b").1 0
      = hGet [⟨[0, 1], [(.s "a", [.num 2, .num 3]), (.s "b", [.num 4, .num 5])]⟩] 0 ∧
    (interactionT [⟨[0, 1], [(.s "a", [.num 2, .num 3]), (.s "b", [.num 4, .num 5])]⟩]
        0 "a" "b").2 = .ok 1 ∧
    hGet (interactionT [⟨[0, 1], [(.s "a", [.num 2, .num 3]), (.s "b", [.num 4, .num 5])]⟩]
        0 "a" "b").1 1
      = ⟨[0, 1], [(.s "a", [.num 2, .num 3]), (.s "b", [.num 4, .num 5]),
          (.s ("a" ++ "*" ++ "b"), [.num (2 * 4), .num (3 * 5)])]⟩ :=
  ⟨(claim_C8_transform_pure
      [⟨[0, 1], [(.s "a", [.num 2, .num 3]), (.s "b", [.num 4, .num 5])]⟩]
      0 "a" "b" "a" 2 id (fun _ => []) (by decide)).1,
   ((claim_C8_transform_pure
      [⟨[0, 1], [(.s "a", [.num 2, .num 3]), (.s "b", [.num 4, .num 5])]⟩]
      0 "a" "b" "a" 2 id (fun _ => []) (by decide)).2.2.2.2.2.2.2.2.1
      [.num (2 * 4), .num (3 * 5)] (by rfl) (by decide) (by decide) (by decide)).1,
   ((claim_C8_transform_pure
      [⟨[0, 1], [(.s "a", [.num 2, .num 3]), (.s "b", [.num 4, .num 5])]⟩]
      0 "a" "b" "a" 2 id (fun _ => []) (by decide)).2.2.2.2.2.2.2.2.1
      [.num (2 * 4), .num (3 * 5)] (by rfl) (by decide) (by decide) (by decide)).2⟩

end RLinreg
